import Mathlib

/-!
Verification of the chunk-construction and retrieval/answer-assembly pipeline
of the data-ingestion backend (`backend/services/chunking.py`, `rag.py`,
`vector_store.py`).

Python strings are embedded as `List Char` (`PyStr`); Python lists as `List`;
Python dict lookups as `Option`-valued fields or association lists; float
scores as `ℚ`.  Regular-expression operations are embedded as deterministic
scanners that implement the exact matching behaviour of the concrete patterns
appearing in the source (all of which are backtracking-free after analysis).
`str.lower()` is modelled on the ASCII range (the Thai script, the only other
script in play, has no case).  The md5 digest used for chunk deduplication is
modelled as the identity on the fingerprint string (md5 is assumed
collision-free); everything else follows the source line by line.
-/

/-- Python `str` as a list of characters. -/
abbrev PyStr := List Char

/-- Python Unicode whitespace (the `\s` class and `str.strip()` set). -/
def isPySpace (c : Char) : Bool :=
  let n := c.toNat
  (decide (9 ≤ n) && decide (n ≤ 13)) || n == 32 || n == 0x85 || n == 0xa0 ||
  n == 0x1680 || (decide (0x2000 ≤ n) && decide (n ≤ 0x200a)) ||
  n == 0x2028 || n == 0x2029 || n == 0x202f || n == 0x205f || n == 0x3000

/-- `str.lower()` on the ASCII range (Thai has no case; every other character
of the corpus is untouched by the pipeline's lowering). -/
def pyLower (c : Char) : Char :=
  if 65 ≤ c.toNat ∧ c.toNat ≤ 90 then Char.ofNat (c.toNat + 32) else c

/-- `str.strip()`: drop Unicode whitespace from both ends. -/
def pyStrip (s : PyStr) : PyStr :=
  ((s.dropWhile isPySpace).reverse.dropWhile isPySpace).reverse

/-- Lowercase a whole string, character-wise. -/
def pyLowerStr (s : PyStr) : PyStr := s.map pyLower

/-- Code-point lexicographic strict order on strings (Python `<` on `str`). -/
def pyStrLtB : PyStr → PyStr → Bool
  | [], [] => false
  | [], _ :: _ => true
  | _ :: _, [] => false
  | a :: as, b :: bs =>
    if a.toNat < b.toNat then true
    else if b.toNat < a.toNat then false
    else pyStrLtB as bs

/-- Helper for `re.sub(r'\s+', '_', s)`: the Boolean records whether the
previous character was whitespace (so a run yields a single underscore). -/
def wsUnd : Bool → PyStr → PyStr
  | _, [] => []
  | inRun, c :: rest =>
    if isPySpace c then
      (if inRun then wsUnd true rest else '_' :: wsUnd true rest)
    else c :: wsUnd false rest

/-- `re.sub(r'\s+', '_', s)`. -/
def wsToUnderscore (s : PyStr) : PyStr := wsUnd false s

/-- The character class kept by `re.sub(r'[^a-z0-9_฀-๿-]', '', ·)`:
lowercase ASCII letters, digits, underscore, hyphen, and the Thai block. -/
def isDocIdChar (c : Char) : Bool :=
  let n := c.toNat
  (decide (97 ≤ n) && decide (n ≤ 122)) || (decide (48 ≤ n) && decide (n ≤ 57)) ||
  n == 95 || n == 45 || (decide (0xe00 ≤ n) && decide (n ≤ 0xe7f))

namespace Rag

/-- `sanitize_doc_id` from `backend/services/rag.py`: empty stays empty;
otherwise lowercase, strip, collapse whitespace runs to `_`, and remove every
character outside `[a-z0-9_฀-๿-]`. -/
def sanitize_doc_id (s : PyStr) : PyStr :=
  if s = [] then []
  else (wsToUnderscore (pyStrip (pyLowerStr s))).filter isDocIdChar

end Rag

namespace VectorStore

/-- `sanitize_doc_id` from `backend/services/vector_store.py` (a verbatim
copy of the one in `rag.py`). -/
def sanitize_doc_id (s : PyStr) : PyStr :=
  if s = [] then []
  else (wsToUnderscore (pyStrip (pyLowerStr s))).filter isDocIdChar

end VectorStore

-- Supporting lemmas for idempotence of `sanitize_doc_id`.

theorem docIdChar_not_space {c : Char} (h : isDocIdChar c = true) :
    isPySpace c = false := by
  simp only [isDocIdChar, Bool.or_eq_true, Bool.and_eq_true,
    decide_eq_true_eq, beq_iff_eq] at h
  rw [Bool.eq_false_iff]
  intro hsp
  simp only [isPySpace, Bool.or_eq_true, Bool.and_eq_true,
    decide_eq_true_eq, beq_iff_eq] at hsp
  omega

theorem docIdChar_lower_fixed {c : Char} (h : isDocIdChar c = true) :
    pyLower c = c := by
  simp only [isDocIdChar, Bool.or_eq_true, Bool.and_eq_true,
    decide_eq_true_eq, beq_iff_eq] at h
  have hn : ¬(65 ≤ c.toNat ∧ c.toNat ≤ 90) := by omega
  simp [pyLower, hn]

theorem dropWhile_eq_self_of_no_space {s : PyStr}
    (h : ∀ c ∈ s, isPySpace c = false) : s.dropWhile isPySpace = s := by
  cases s with
  | nil => rfl
  | cons c rest =>
    rw [List.dropWhile_cons, if_neg]
    simp [h c (List.mem_cons_self c rest)]

theorem pyStrip_eq_self_of_no_space {s : PyStr}
    (h : ∀ c ∈ s, isPySpace c = false) : pyStrip s = s := by
  unfold pyStrip
  rw [dropWhile_eq_self_of_no_space h, dropWhile_eq_self_of_no_space ?_,
    List.reverse_reverse]
  intro c hc
  exact h c (List.mem_reverse.mp hc)

theorem wsUnd_eq_self_of_no_space {s : PyStr}
    (h : ∀ c ∈ s, isPySpace c = false) : ∀ b, wsUnd b s = s := by
  induction s with
  | nil => intro b; rfl
  | cons c rest ih =>
    intro b
    unfold wsUnd
    rw [if_neg]
    · rw [ih (fun x hx => h x (List.mem_cons_of_mem c hx)) false]
    · simp [h c (List.mem_cons_self c rest)]

theorem pyLowerStr_eq_self_of_docId {s : PyStr}
    (h : ∀ c ∈ s, isDocIdChar c = true) : pyLowerStr s = s := by
  unfold pyLowerStr
  induction s with
  | nil => rfl
  | cons c rest ih =>
    rw [List.map_cons, docIdChar_lower_fixed (h c (List.mem_cons_self c rest)),
      ih (fun x hx => h x (List.mem_cons_of_mem c hx))]

theorem sanitize_fixed_of_docId {s : PyStr}
    (h : ∀ c ∈ s, isDocIdChar c = true) : Rag.sanitize_doc_id s = s := by
  unfold Rag.sanitize_doc_id
  by_cases hs : s = []
  · simp [hs]
  · rw [if_neg hs, pyLowerStr_eq_self_of_docId h,
      pyStrip_eq_self_of_no_space (fun c hc => docIdChar_not_space (h c hc)),
      wsToUnderscore,
      wsUnd_eq_self_of_no_space (fun c hc => docIdChar_not_space (h c hc)) false,
      List.filter_eq_self.mpr h]

theorem sanitize_output_chars (s : PyStr) :
    ∀ c ∈ Rag.sanitize_doc_id s, isDocIdChar c = true := by
  unfold Rag.sanitize_doc_id
  by_cases hs : s = []
  · simp [hs]
  · rw [if_neg hs]
    intro c hc
    exact List.of_mem_filter hc

/-- C10: document-id canonicalization is idempotent, and the copies of
`sanitize_doc_id` in `rag.py` and `vector_store.py` compute the same
function — re-sanitizing at read time never changes an id sanitized at
write time. -/
theorem C10_theorem (s : PyStr) :
    Rag.sanitize_doc_id (Rag.sanitize_doc_id s) = Rag.sanitize_doc_id s
    ∧ Rag.sanitize_doc_id s = VectorStore.sanitize_doc_id s := by
  refine ⟨sanitize_fixed_of_docId (sanitize_output_chars s), rfl⟩

-- ===================================================================
-- chunking.py : intent priorities and primary-intent selection
-- ===================================================================

namespace Chunking

/-- `_INTENT_PRIORITY` dict from `chunking.py`; `.get(x, 0)` semantics. -/
def INTENT_PRIORITY (s : PyStr) : Nat :=
  if s = "troubleshooting".data then 5
  else if s = "safety".data then 5
  else if s = "installation".data then 4
  else if s = "financial".data then 3
  else if s = "identity".data then 3
  else if s = "reference".data then 2
  else if s = "general".data then 1
  else 0

/-- Strict order on the sort key `(_INTENT_PRIORITY.get(x, 0), x)` used by
`_select_primary_intent`. -/
def intentKeyLt (a b : PyStr) : Bool :=
  decide (INTENT_PRIORITY a < INTENT_PRIORITY b) ||
  (decide (INTENT_PRIORITY a = INTENT_PRIORITY b) && pyStrLtB a b)

/-- Fold computing the maximum of a list under the `(priority, tag)` key —
the element `sorted(key=..., reverse=True)[0]` returns. -/
def pickPrimary : PyStr → List PyStr → PyStr
  | best, [] => best
  | best, x :: rest => pickPrimary (if intentKeyLt best x then x else best) rest

/-- `_select_primary_intent` from `chunking.py`: empty list yields
`"general"`, otherwise the maximum under `(priority, tag)`. -/
def select_primary_intent (intents : List PyStr) : PyStr :=
  match intents with
  | [] => "general".data
  | x :: rest => pickPrimary x rest

theorem pyStrLtB_trans : ∀ {a b c : PyStr},
    pyStrLtB a b = true → pyStrLtB b c = true → pyStrLtB a c = true := by
  intro a
  induction a with
  | nil =>
    intro b c hab hbc
    cases b with
    | nil => simp [pyStrLtB] at hab
    | cons y ys =>
      cases c with
      | nil => simp [pyStrLtB] at hbc
      | cons z zs => simp [pyStrLtB]
  | cons x xs ih =>
    intro b c hab hbc
    cases b with
    | nil => simp [pyStrLtB] at hab
    | cons y ys =>
      cases c with
      | nil => simp [pyStrLtB] at hbc
      | cons z zs =>
        simp only [pyStrLtB] at hab hbc ⊢
        split at hab
        · split at hbc
          · rw [if_pos (by omega)]
          · split at hbc
            · simp at hbc
            · rw [if_pos (by omega)]
        · split at hab
          · simp at hab
          · split at hbc
            · rw [if_pos (by omega)]
            · split at hbc
              · simp at hbc
              · rw [if_neg (by omega), if_neg (by omega)]
                exact ih hab hbc

theorem charEq_of_toNat_eq {x y : Char} (h : x.toNat = y.toNat) : x = y :=
  Char.eq_of_val_eq (UInt32.ext_iff.mpr h)

theorem pyStrLtB_irrefl (a : PyStr) : pyStrLtB a a = false := by
  induction a with
  | nil => rfl
  | cons x xs ih => simp [pyStrLtB, ih]

theorem pyStrLtB_conn : ∀ {a b : PyStr},
    pyStrLtB a b = false → pyStrLtB b a = false → a = b := by
  intro a
  induction a with
  | nil =>
    intro b hab _
    cases b with
    | nil => rfl
    | cons y ys => simp [pyStrLtB] at hab
  | cons x xs ih =>
    intro b hab hba
    cases b with
    | nil => simp [pyStrLtB] at hba
    | cons y ys =>
      simp only [pyStrLtB] at hab hba
      by_cases h1 : x.toNat < y.toNat
      · rw [if_pos h1] at hab
        exact absurd hab (by simp)
      · by_cases h2 : y.toNat < x.toNat
        · rw [if_pos h2] at hba
          exact absurd hba (by simp)
        · rw [if_neg h1, if_neg h2] at hab
          rw [if_neg h2, if_neg h1] at hba
          have hxy : x = y := charEq_of_toNat_eq (by omega)
          rw [hxy, ih hab hba]

theorem intentKeyLt_trans {a b c : PyStr} (hab : intentKeyLt a b = true)
    (hbc : intentKeyLt b c = true) : intentKeyLt a c = true := by
  unfold intentKeyLt at *
  simp only [Bool.or_eq_true, Bool.and_eq_true, decide_eq_true_eq] at *
  rcases hab with h1 | ⟨h1, h2⟩ <;> rcases hbc with h3 | ⟨h3, h4⟩
  · left; omega
  · left; omega
  · left; omega
  · right; exact ⟨by omega, pyStrLtB_trans h2 h4⟩

theorem intentKeyLt_conn {a b : PyStr} (hab : intentKeyLt a b = false)
    (hba : intentKeyLt b a = false) : a = b := by
  unfold intentKeyLt at *
  simp only [Bool.or_eq_false_iff, Bool.and_eq_false_iff,
    decide_eq_false_iff_not] at *
  obtain ⟨h1, h2⟩ := hab
  obtain ⟨h3, h4⟩ := hba
  rcases h2 with h2 | h2
  · omega
  · rcases h4 with h4 | h4
    · omega
    · exact pyStrLtB_conn h2 h4

theorem pickPrimary_mem (best : PyStr) (l : List PyStr) :
    pickPrimary best l = best ∨ pickPrimary best l ∈ l := by
  induction l generalizing best with
  | nil => left; rfl
  | cons x rest ih =>
    unfold pickPrimary
    by_cases h : intentKeyLt best x = true
    · rw [if_pos h]
      rcases ih x with h1 | h1
      · right; rw [h1]; exact List.mem_cons_self x rest
      · right; exact List.mem_cons_of_mem x h1
    · rw [if_neg h]
      rcases ih best with h1 | h1
      · left; exact h1
      · right; exact List.mem_cons_of_mem x h1

theorem intentKeyLt_irrefl (a : PyStr) : intentKeyLt a a = false := by
  unfold intentKeyLt
  simp [pyStrLtB_irrefl]

theorem pickPrimary_not_lt (best : PyStr) (l : List PyStr) :
    intentKeyLt (pickPrimary best l) best = false
    ∧ ∀ x ∈ l, intentKeyLt (pickPrimary best l) x = false := by
  induction l generalizing best with
  | nil => exact ⟨intentKeyLt_irrefl best, by simp⟩
  | cons x rest ih =>
    unfold pickPrimary
    by_cases h : intentKeyLt best x = true
    · rw [if_pos h]
      obtain ⟨hx, hrest⟩ := ih x
      refine ⟨?_, ?_⟩
      · -- pick ≥ x and best < x give pick ≥ best
        by_contra hcon
        rw [Bool.not_eq_false] at hcon
        have := intentKeyLt_trans hcon h
        rw [hx] at this
        exact Bool.false_ne_true this
      · intro y hy
        rcases List.mem_cons.mp hy with h1 | h1
        · rw [h1]; exact hx
        · exact hrest y h1
    · rw [if_neg h]
      obtain ⟨hb, hrest⟩ := ih best
      rw [Bool.not_eq_true] at h
      refine ⟨hb, ?_⟩
      intro y hy
      rcases List.mem_cons.mp hy with h1 | h1
      · -- pick ≥ best and ¬ best < x give pick ≥ x
        rw [h1]
        by_contra hcon
        rw [Bool.not_eq_false] at hcon
        by_cases hyb : intentKeyLt x best = true
        · have := intentKeyLt_trans hcon hyb
          rw [hb] at this
          exact Bool.false_ne_true this
        · rw [Bool.not_eq_true] at hyb
          rw [← intentKeyLt_conn h hyb] at hcon
          rw [hb] at hcon
          exact Bool.false_ne_true hcon
      · exact hrest y h1

theorem select_primary_mem {l : List PyStr} (h : l ≠ []) :
    select_primary_intent l ∈ l := by
  cases l with
  | nil => exact absurd rfl h
  | cons x rest =>
    have hs : select_primary_intent (x :: rest) = pickPrimary x rest := rfl
    rw [hs]
    rcases pickPrimary_mem x rest with h1 | h1
    · rw [h1]; exact List.mem_cons_self x rest
    · exact List.mem_cons_of_mem x h1

theorem select_primary_max {l : List PyStr} (h : l ≠ []) :
    ∀ x ∈ l, intentKeyLt (select_primary_intent l) x = false := by
  cases l with
  | nil => exact absurd rfl h
  | cons a rest =>
    intro x hx
    have hs : select_primary_intent (a :: rest) = pickPrimary a rest := rfl
    rw [hs]
    obtain ⟨ha, hrest⟩ := pickPrimary_not_lt a rest
    rcases List.mem_cons.mp hx with h1 | h1
    · rw [h1]; exact ha
    · exact hrest x h1

end Chunking

/-- C1 counterexample: `troubleshooting` and `safety` share the highest
priority (5), and on the matched set `{safety, troubleshooting}` the code
selects `troubleshooting` — the alphabetically LAST of the tied tags, not the
alphabetically first as claimed (`sorted(..., reverse=True)` also reverses
the alphabetical tie-break). -/
theorem C1_counterexample :
    Chunking.select_primary_intent ["safety".data, "troubleshooting".data]
      = "troubleshooting".data
    ∧ Chunking.INTENT_PRIORITY "safety".data
      = Chunking.INTENT_PRIORITY "troubleshooting".data
    ∧ pyStrLtB "safety".data "troubleshooting".data = true := by
  refine ⟨by decide, by decide, by decide⟩

/-- C1 (amended): for every non-empty list of matched intent tags, the
selected primary intent is a member of highest priority, and among tags tied
at the highest priority it is the alphabetically last one (no tied tag is
strictly greater in code-point order); selection is a pure function of the
list. -/
theorem C1_theorem (l : List PyStr) (h : l ≠ []) :
    Chunking.select_primary_intent l ∈ l
    ∧ (∀ x ∈ l, Chunking.INTENT_PRIORITY x
        ≤ Chunking.INTENT_PRIORITY (Chunking.select_primary_intent l))
    ∧ (∀ x ∈ l, Chunking.INTENT_PRIORITY x
        = Chunking.INTENT_PRIORITY (Chunking.select_primary_intent l) →
        pyStrLtB (Chunking.select_primary_intent l) x = false) := by
  refine ⟨Chunking.select_primary_mem h, ?_, ?_⟩
  · intro x hx
    have := Chunking.select_primary_max h x hx
    unfold Chunking.intentKeyLt at this
    simp only [Bool.or_eq_false_iff, Bool.and_eq_false_iff,
      decide_eq_false_iff_not] at this
    omega
  · intro x hx heq
    have := Chunking.select_primary_max h x hx
    unfold Chunking.intentKeyLt at this
    simp only [Bool.or_eq_false_iff, Bool.and_eq_false_iff,
      decide_eq_false_iff_not] at this
    obtain ⟨-, h2⟩ := this
    rcases h2 with h2 | h2
    · omega
    · exact h2

/-- C1 witness: the amended theorem applied at the concrete matched set
`{safety, troubleshooting}`. -/
theorem C1_witness :
    Chunking.select_primary_intent ["safety".data, "troubleshooting".data]
      ∈ ["safety".data, "troubleshooting".data]
    ∧ (∀ x ∈ ["safety".data, "troubleshooting".data],
        Chunking.INTENT_PRIORITY x ≤ Chunking.INTENT_PRIORITY
          (Chunking.select_primary_intent ["safety".data, "troubleshooting".data]))
    ∧ (∀ x ∈ ["safety".data, "troubleshooting".data],
        Chunking.INTENT_PRIORITY x = Chunking.INTENT_PRIORITY
          (Chunking.select_primary_intent ["safety".data, "troubleshooting".data]) →
        pyStrLtB (Chunking.select_primary_intent
          ["safety".data, "troubleshooting".data]) x = false) :=
  C1_theorem ["safety".data, "troubleshooting".data] (by decide)

-- ===================================================================
-- rag.py : keyword overlap guard and the relevance gate
-- ===================================================================

/-- Python `\w` (Unicode word character) restricted to the scripts the
pipeline handles: ASCII alphanumerics, underscore, and the alphanumeric
characters of the Thai block (consonants, independent vowels, ๆ, and Thai
digits; combining marks and Thai punctuation are not word characters). -/
def isPyWordChar (c : Char) : Bool :=
  let n := c.toNat
  (decide (48 ≤ n) && decide (n ≤ 57)) || (decide (65 ≤ n) && decide (n ≤ 90)) ||
  (decide (97 ≤ n) && decide (n ≤ 122)) || n == 95 ||
  (decide (0xe01 ≤ n) && decide (n ≤ 0xe2e)) || n == 0xe30 || n == 0xe32 ||
  n == 0xe33 || (decide (0xe40 ≤ n) && decide (n ≤ 0xe46)) ||
  (decide (0xe50 ≤ n) && decide (n ≤ 0xe59))

/-- `re.sub(r'[^\w\s]', '', s)`: keep only word characters and whitespace. -/
def stripNonWord (s : PyStr) : PyStr :=
  s.filter (fun c => isPyWordChar c || isPySpace c)

/-- Helper for `str.split()` with no separator: accumulate the current token
(reversed) and split on whitespace runs, producing no empty tokens. -/
def pySplitAux (cur : PyStr) : PyStr → List PyStr
  | [] => if cur = [] then [] else [cur.reverse]
  | c :: rest =>
    if isPySpace c then
      (if cur = [] then pySplitAux [] rest
       else cur.reverse :: pySplitAux [] rest)
    else pySplitAux (c :: cur) rest

/-- `str.split()` with no arguments. -/
def pySplit (s : PyStr) : List PyStr := pySplitAux [] s

namespace Rag

/-- The stopword set of `_keyword_overlap_count`. -/
def STOPWORDS : List PyStr :=
  ["คือ", "เป็น", "อยู่", "จะ", "ได้", "ที่", "ซึ่ง", "อัน", "ของ",
   "what", "is", "are", "the", "a", "an", "ครับ", "ค่ะ"].map String.data

/-- `MIN_SCORE_THRESHOLD = 0.25` from `rag.py`. -/
def MIN_SCORE_THRESHOLD : ℚ := 1/4

/-- `MIN_KEYWORD_OVERLAP = 1` from `rag.py`. -/
def MIN_KEYWORD_OVERLAP : Nat := 1

/-- `_keyword_overlap_count` from `rag.py`: strip non-word/non-space
characters, lowercase, tokenize both sides, remove stopwords from the query
tokens, and count the distinct query tokens that also occur in the text. -/
def keyword_overlap_count (query text : PyStr) : Nat :=
  let qClean := pyLowerStr (stripNonWord query)
  let tClean := pyLowerStr (stripNonWord text)
  let qTokens := ((pySplit qClean).dedup).filter (fun t => ¬ t ∈ STOPWORDS)
  let tTokens := pySplit tClean
  if qTokens = [] then 0
  else (qTokens.filter (fun t => t ∈ tTokens)).length

end Rag

/-- A retrieved document (`langchain` `Document`): page content plus the
scalar metadata fields this pipeline reads.  Fields the code accesses with
`metadata.get(key, default)` are `Option`-valued; `ai_score` and
`keyword_score` are the mutable score slots the reranker fills in. -/
structure PyDoc where
  page_content : PyStr
  doc_id : Option PyStr := none
  source : Option PyStr := none
  doc_type : Option PyStr := none
  page : Option Nat := none
  chunk_id : Option PyStr := none
  html_content : Option PyStr := none
  markdown_content : Option PyStr := none
  category : Option PyStr := none
  role : Option PyStr := none
  ai_score : Option ℚ := none
  keyword_score : Option ℚ := none
deriving DecidableEq, Repr

namespace Rag

/-- `_filter_relevant_docs` from `rag.py`: reject candidates whose
`ai_score` (default `0.0`) is below `min_score`; for queries longer than 10
characters additionally reject candidates with keyword overlap below
`MIN_KEYWORD_OVERLAP` unless the score reaches `0.75`. -/
def filter_relevant_docs (query : PyStr) (docs : List PyDoc)
    (minScore : ℚ := MIN_SCORE_THRESHOLD) : List PyDoc :=
  docs.filter (fun d =>
    let score := d.ai_score.getD 0
    let content := d.page_content
    if score < minScore then false
    else if 10 < query.length then
      (if Rag.keyword_overlap_count query content < MIN_KEYWORD_OVERLAP then
        decide ((3 : ℚ)/4 ≤ score)
      else true)
    else true)

end Rag

/-- C4: every candidate passed by the relevance gate has confidence at least
the minimum score threshold; for queries longer than the 10-character
minimum, a passed candidate additionally has at least one non-stopword token
overlap with the query unless its confidence reaches 0.75; in particular a
candidate below the threshold with zero overlap is never in the output. -/
theorem C4_theorem (query : PyStr) (docs : List PyDoc) (minScore : ℚ)
    (d : PyDoc) (hd : d ∈ Rag.filter_relevant_docs query docs minScore) :
    minScore ≤ d.ai_score.getD 0
    ∧ (10 < query.length →
        Rag.MIN_KEYWORD_OVERLAP ≤ Rag.keyword_overlap_count query d.page_content
        ∨ (3 : ℚ)/4 ≤ d.ai_score.getD 0)
    ∧ ¬(d.ai_score.getD 0 < minScore
        ∧ Rag.keyword_overlap_count query d.page_content = 0) := by
  unfold Rag.filter_relevant_docs at hd
  obtain ⟨-, hp⟩ := List.mem_filter.mp hd
  simp only at hp
  by_cases h1 : d.ai_score.getD 0 < minScore
  · rw [if_pos h1] at hp
    exact absurd hp (by simp)
  · rw [if_neg h1] at hp
    push_neg at h1
    refine ⟨h1, ?_, fun hcon => absurd hcon.1 (not_lt.mpr h1)⟩
    intro hlen
    rw [if_pos hlen] at hp
    by_cases h2 :
        Rag.keyword_overlap_count query d.page_content < Rag.MIN_KEYWORD_OVERLAP
    · rw [if_pos h2] at hp
      right
      exact of_decide_eq_true hp
    · left
      omega

/-- A concrete candidate used to exercise the relevance gate. -/
def c4doc : PyDoc :=
  { page_content := "warranty period 2 years".data, ai_score := some (1/2) }

/-- A concrete query used to exercise the relevance gate. -/
def c4query : PyStr := "what is the warranty".data

/-- C4 witness: the gate applied to a concrete pool — a passing candidate
(score 0.5, overlapping token "warranty") satisfies all three conclusions. -/
theorem C4_witness :
    Rag.MIN_SCORE_THRESHOLD ≤ c4doc.ai_score.getD 0
    ∧ (10 < c4query.length →
        Rag.MIN_KEYWORD_OVERLAP
          ≤ Rag.keyword_overlap_count c4query c4doc.page_content
        ∨ (3 : ℚ)/4 ≤ c4doc.ai_score.getD 0)
    ∧ ¬(c4doc.ai_score.getD 0 < Rag.MIN_SCORE_THRESHOLD
        ∧ Rag.keyword_overlap_count c4query c4doc.page_content = 0) := by
  have hd : c4doc ∈ Rag.filter_relevant_docs c4query [c4doc]
      Rag.MIN_SCORE_THRESHOLD := by
    unfold Rag.filter_relevant_docs
    apply List.mem_filter.mpr
    refine ⟨List.mem_cons_self _ _, ?_⟩
    have hs : c4doc.ai_score.getD 0 = (1 : ℚ)/2 := rfl
    simp only [hs]
    rw [if_neg (by rw [Rag.MIN_SCORE_THRESHOLD]; norm_num),
      if_pos (by decide : 10 < c4query.length),
      if_neg (by decide :
        ¬ Rag.keyword_overlap_count c4query c4doc.page_content
          < Rag.MIN_KEYWORD_OVERLAP)]
  exact C4_theorem c4query [c4doc] Rag.MIN_SCORE_THRESHOLD c4doc hd

-- ===================================================================
-- chunking.py : normalization, keyword matching, semantic grouping
-- ===================================================================

namespace Chunking

/-- `_MAX_CHUNK_CHARS = 1200`. -/
def MAX_CHUNK_CHARS : Nat := 1200

/-- `_MAX_INTENTS = 5`. -/
def MAX_INTENTS : Nat := 5

/-- Literal substring search (one branch of a regex alternation of
literals). -/
def containsSub (pat s : PyStr) : Bool :=
  s.tails.any (fun t => pat.isPrefixOf t)

/-- Search for `a\s*b` (e.g. `how\s*to`): some suffix starts with `a`,
followed by optional whitespace, followed by `b`. -/
def containsPairGap (a b s : PyStr) : Bool :=
  s.tails.any (fun t =>
    a.isPrefixOf t && b.isPrefixOf ((t.drop a.length).dropWhile isPySpace))

/-- `_KW_INSTALL` searched in the lowered combined text. -/
def kwInstall (s : PyStr) : Bool :=
  containsSub "วิธี".data s || containsSub "ขั้นตอน".data s ||
  containsPairGap "how".data "to".data s || containsSub "install".data s ||
  containsSub "setup".data s || containsSub "การติดตั้ง".data s ||
  containsSub "วิธีการ".data s

/-- `_KW_TROUBLESHOOT`. -/
def kwTroubleshoot (s : PyStr) : Bool :=
  containsSub "แก้ปัญหา".data s || containsSub "error".data s ||
  containsSub "fail".data s || containsPairGap "not".data "working".data s ||
  containsSub "เสีย".data s || containsSub "ซ่อม".data s ||
  containsSub "troubleshoot".data s

/-- `_KW_SAFETY`. -/
def kwSafety (s : PyStr) : Bool :=
  containsSub "ความปลอดภัย".data s || containsSub "warning".data s ||
  containsSub "danger".data s || containsSub "ระวัง".data s ||
  containsSub "ห้าม".data s || containsSub "อันตราย".data s

/-- `_KW_REF`. -/
def kwRef (s : PyStr) : Bool :=
  containsSub "ความหมาย".data s || containsSub "คือ".data s ||
  containsSub "definition".data s || containsSub "spec".data s ||
  containsSub "สเปค".data s || containsSub "คุณลักษณะ".data s

/-- `_KW_FINANCE`. -/
def kwFinance (s : PyStr) : Bool :=
  containsSub "ราคา".data s || containsSub "ค่าใช้จ่าย".data s ||
  containsSub "เงิน".data s || containsSub "บาท".data s ||
  containsSub "cost".data s || containsSub "price".data s

/-- `_KW_IDENTITY`. -/
def kwIdentity (s : PyStr) : Bool :=
  containsSub "ผู้".data s || containsSub "ชื่อ".data s ||
  containsSub "ลงนาม".data s || containsSub "อนุมัติ".data s ||
  containsSub "who".data s || containsSub "name".data s ||
  containsSub "signature".data s

/-- The `intent` list of `_extract_intent_and_entities`: the matched classes
in the order troubleshooting, safety, installation, identity, financial,
reference.  The dict is inserted in descending score order (3, 3, 2, 2, 2, 1)
and Python's stable sort on the score therefore preserves exactly this
insertion order; `["general"]` when nothing matches, capped at
`_MAX_INTENTS`.  (The entity fields of the result, which no verified claim
reads, are not modelled.) -/
def extractIntents (text sect : PyStr) : List PyStr :=
  let combined := pyLowerStr text ++ ' ' :: pyLowerStr sect
  let l :=
    (if kwTroubleshoot combined then ["troubleshooting".data] else []) ++
    (if kwSafety combined then ["safety".data] else []) ++
    (if kwInstall combined then ["installation".data] else []) ++
    (if kwIdentity combined then ["identity".data] else []) ++
    (if kwFinance combined then ["financial".data] else []) ++
    (if kwRef combined then ["reference".data] else [])
  let l2 := if l = [] then ["general".data] else l
  l2.take MAX_INTENTS

/-- Zero-width characters removed by `_RE_ZERO_WIDTH`. -/
def isZeroWidth (c : Char) : Bool :=
  c.toNat == 0x200b || c.toNat == 0x200c || c.toNat == 0x200d ||
  c.toNat == 0xfeff

/-- Emit a pending run of newlines: runs of three or more collapse to two
(`re.sub(r'\n{3,}', '\n\n', ·)`). -/
def emitNL (run : Nat) : PyStr :=
  if 3 ≤ run then ['\n', '\n'] else List.replicate run '\n'

/-- State-machine for newline-run collapsing; `run` counts pending `\n`. -/
def collapseNLAux : Nat → PyStr → PyStr
  | run, [] => emitNL run
  | run, c :: rest =>
    if c = '\n' then collapseNLAux (run + 1) rest
    else emitNL run ++ (c :: collapseNLAux 0 rest)

/-- `re.sub(r'\n{3,}', '\n\n', ·)`. -/
def collapseNL (s : PyStr) : PyStr := collapseNLAux 0 s

/-- Emit a pending run of spaces: runs of two or more collapse to one
(`re.sub(r' {2,}', ' ', ·)`). -/
def emitSP (run : Nat) : PyStr :=
  if 2 ≤ run then [' '] else List.replicate run ' '

/-- State-machine for space-run collapsing. -/
def collapseSPAux : Nat → PyStr → PyStr
  | run, [] => emitSP run
  | run, c :: rest =>
    if c = ' ' then collapseSPAux (run + 1) rest
    else emitSP run ++ (c :: collapseSPAux 0 rest)

/-- `re.sub(r' {2,}', ' ', ·)`. -/
def collapseSP (s : PyStr) : PyStr := collapseSPAux 0 s

/-- `_normalize_whitespace` from `chunking.py`: remove zero-width
characters, map NBSP to space, collapse newline and space runs, strip. -/
def normalize_whitespace (s : PyStr) : PyStr :=
  if s = [] then []
  else
    pyStrip (collapseSP (collapseNL
      ((s.filter (fun c => !isZeroWidth c)).map
        (fun c => if c.toNat == 0xa0 then ' ' else c))))

/-- A character of the `[\w฀-๿]{3,}` class of `_RE_MEANINGFUL`: a word
character or any character of the Thai block. -/
def isMeaningfulChar (c : Char) : Bool :=
  isPyWordChar c || (decide (0xe00 ≤ c.toNat) && decide (c.toNat ≤ 0xe7f))

/-- Does the string contain a run of three consecutive meaningful
characters? -/
def hasRun3 : PyStr → Bool
  | a :: b :: c :: rest =>
    (isMeaningfulChar a && isMeaningfulChar b && isMeaningfulChar c) ||
    hasRun3 (b :: c :: rest)
  | _ => false

/-- `_has_meaningful_text` from `chunking.py`. -/
def has_meaningful_text (s : PyStr) : Bool :=
  if s = [] then false else hasRun3 (pyStrip s)

/-- After one alternative of `(?:ถาม|q|question)` has been consumed, the
rest must match `\s*[:\-]`: optional whitespace then a colon or hyphen. -/
def colonAfter (t : PyStr) : Bool :=
  match t.dropWhile isPySpace with
  | [] => false
  | c :: _ => c == ':' || c == '-'

/-- One anchored attempt of `_RE_QNA` at the start of a (lowered) suffix. -/
def qnaAltAt (t : PyStr) : Bool :=
  ("ถาม".data.isPrefixOf t && colonAfter (t.drop "ถาม".data.length)) ||
  (['q'].isPrefixOf t && colonAfter (t.drop 1)) ||
  ("question".data.isPrefixOf t && colonAfter (t.drop "question".data.length))

/-- `_RE_QNA.search` (case-insensitive): some suffix of the lowered string
matches `(?:ถาม|q|question)\s*[:\-]`. -/
def qnaSearch (s : PyStr) : Bool := (pyLowerStr s).tails.any qnaAltAt

/-- A text block (`TextItem` from `models.py`): the fields the chunker
reads.  `heading_level` and `block_type` stand for
`extra.get("heading_level")` and `extra.get("block_type")`. -/
structure TextBlock where
  doc_id : PyStr
  page : Nat
  sect : Option PyStr := none
  content : PyStr
  doc_type : Option PyStr := none
  heading_level : Option PyStr := none
  block_type : Option PyStr := none
deriving DecidableEq, Repr

/-- A flushed semantic group (`{"blocks", "section", "primary_intent"}`). -/
structure TextGroup where
  blocks : List TextBlock
  sect : Option PyStr
  primary_intent : PyStr
deriving DecidableEq, Repr

/-- The running accumulator of `_group_blocks_semantically`. -/
structure GroupState where
  cur : List TextBlock
  curLen : Nat
  curSection : Option PyStr
  curIntents : List PyStr
deriving DecidableEq, Repr

/-- Python-set disjointness on the intent lists. -/
def disjointB (s t : List PyStr) : Bool := s.all (fun x => !(t.contains x))

/-- Python-set union of the intent lists (first-occurrence order; every use
downstream — emptiness, disjointness, max-priority selection — is
order-independent, so insertion order stands in for set iteration order). -/
def intentUnion (s t : List PyStr) : List PyStr :=
  s ++ t.filter (fun x => !(s.contains x))

/-- The per-block cached metadata's `primary_intent`
(`intent_cache[id(block)]["primary_intent"]`), recomputed from the block:
the cache is filled from the block's normalized content and section. -/
def blockPrimary (b : TextBlock) : PyStr :=
  select_primary_intent
    (extractIntents (normalize_whitespace b.content) (b.sect.getD []))

/-- The loop body of `_group_blocks_semantically`: fold the blocks through
the accumulator, flushing a group at every break condition, and flush the
leftover at the end. -/
def groupStep : GroupState → List TextBlock → List TextGroup
  | st, [] =>
    if st.cur = [] then []
    else [⟨st.cur, st.curSection, select_primary_intent st.curIntents⟩]
  | st, b :: rest =>
    let content := normalize_whitespace b.content
    if content = [] || !has_meaningful_text content then groupStep st rest
    else
      let blockIntents := extractIntents content (b.sect.getD [])
      let blockLen := content.length
      let is_qna := qnaSearch content
      let is_new_section := decide (b.sect ≠ st.curSection) && decide (st.cur ≠ [])
      let is_major_heading := decide (b.heading_level = some "H1".data)
      let is_too_long := decide (MAX_CHUNK_CHARS < st.curLen + blockLen)
      let intent_changed :=
        if st.cur = [] then false
        else
          (decide (st.curIntents ≠ []) && decide (blockIntents ≠ []) &&
            disjointB st.curIntents blockIntents) ||
          (match st.cur.getLast? with
           | none => false
           | some lastB =>
             let cp := blockPrimary lastB
             (decide (cp = "troubleshooting".data) || decide (cp = "safety".data)) &&
             !(decide (select_primary_intent blockIntents = "troubleshooting".data) ||
               decide (select_primary_intent blockIntents = "safety".data)))
      let should_break :=
        is_new_section || is_too_long || is_major_heading || intent_changed || is_qna
      let flushed : List TextGroup :=
        if should_break && decide (st.cur ≠ []) then
          [⟨st.cur, st.curSection, select_primary_intent st.curIntents⟩]
        else []
      let st' : GroupState :=
        if should_break && decide (st.cur ≠ []) then
          ⟨[b], blockLen, b.sect, blockIntents⟩
        else
          ⟨st.cur ++ [b], st.curLen + blockLen, b.sect,
            intentUnion st.curIntents blockIntents⟩
      flushed ++ groupStep st' rest

/-- `_group_blocks_semantically` from `chunking.py`. -/
def group_blocks_semantically (blocks : List TextBlock) : List TextGroup :=
  groupStep ⟨[], 0, none, []⟩ blocks

end Chunking

-- ===================================================================
-- Shared scanners for the sanitization regexes
-- ===================================================================

/-- Case-insensitive literal-prefix test: the pattern is given lowercase and
each string character is lowered before comparison. -/
def lowPrefix : PyStr → PyStr → Bool
  | [], _ => true
  | _ :: _, [] => false
  | p :: ps, c :: cs => (pyLower c == p) && lowPrefix ps cs

/-- The suffix strictly after the first (case-insensitive) occurrence of
`pat`, or `none` when `pat` does not occur — the lazy `.*?pat` step. -/
def dropAfterFirst (pat : PyStr) : PyStr → Option PyStr
  | [] => none
  | c :: rest =>
    if lowPrefix pat (c :: rest) then some ((c :: rest).drop pat.length)
    else dropAfterFirst pat rest

/-- Fuel-indexed scanner for
`re.sub(r"<script.*?>.*?</script>", "", ·, IGNORECASE | DOTALL)`: at each
position, a match consumes up to the first `>` after `<script` and then up
to the first `</script>`, emitting nothing.  The fuel (initially the string
length, consumed one unit per step) only makes the recursion structural. -/
def scanScriptF : Nat → PyStr → PyStr
  | 0, s => s
  | _ + 1, [] => []
  | fuel + 1, c :: rest =>
    if lowPrefix "<script".data (c :: rest) then
      match dropAfterFirst ">".data ((c :: rest).drop 7) with
      | none => c :: scanScriptF fuel rest
      | some afterGt =>
        match dropAfterFirst "</script>".data afterGt with
        | none => c :: scanScriptF fuel rest
        | some afterEnd => scanScriptF fuel afterEnd
    else c :: scanScriptF fuel rest

/-- `re.sub(r"<script.*?>.*?</script>", "", ·)`. -/
def scanScript (s : PyStr) : PyStr := scanScriptF s.length s

/-- Fuel-indexed scanner for
`re.sub(r" on\w+=", " data-blocked-event=", ·, IGNORECASE)`. -/
def scanEventF : Nat → PyStr → PyStr
  | 0, s => s
  | _ + 1, [] => []
  | fuel + 1, c :: rest =>
    if c = ' ' && lowPrefix "on".data rest then
      let w := (rest.drop 2).takeWhile isPyWordChar
      if w = [] then c :: scanEventF fuel rest
      else
        match (rest.drop 2).drop w.length with
        | '=' :: after => " data-blocked-event=".data ++ scanEventF fuel after
        | _ => c :: scanEventF fuel rest
    else c :: scanEventF fuel rest

/-- `re.sub(r" on\w+=", " data-blocked-event=", ·)`. -/
def scanEvent (s : PyStr) : PyStr := scanEventF s.length s

/-- Fuel-indexed scanner for
`re.sub(r"javascript:", "blocked:", ·, IGNORECASE)`. -/
def scanJsF : Nat → PyStr → PyStr
  | 0, s => s
  | _ + 1, [] => []
  | fuel + 1, c :: rest =>
    if lowPrefix "javascript:".data (c :: rest) then
      "blocked:".data ++ scanJsF fuel ((c :: rest).drop 11)
    else c :: scanJsF fuel rest

/-- `re.sub(r"javascript:", "blocked:", ·)`. -/
def scanJs (s : PyStr) : PyStr := scanJsF s.length s

namespace Chunking

/-- `_sanitize_html_content` from `chunking.py`: empty stays empty;
otherwise remove script elements, neutralize inline event handlers and
`javascript:` URIs, and strip. -/
def sanitize_html_content (s : PyStr) : PyStr :=
  if s = [] then []
  else pyStrip (scanJs (scanEvent (scanScript s)))

-- ===================================================================
-- chunking.py : content assembly, dedup, text and table chunks
-- ===================================================================

/-- `"sep".join(parts)`. -/
def joinSep (sep : PyStr) : List PyStr → PyStr
  | [] => []
  | [x] => x
  | x :: y :: xs => x ++ sep ++ joinSep sep (y :: xs)

/-- `"\n".join(parts)`. -/
def joinNL (parts : List PyStr) : PyStr := joinSep ['\n'] parts

/-- `str(n)` for a natural number. -/
def natStr (n : Nat) : PyStr := (Nat.repr n).data

/-- Insertion step for sorting naturals ascending (`sorted` on pages). -/
def insertNat (x : Nat) : List Nat → List Nat
  | [] => [x]
  | y :: ys => if x < y then x :: y :: ys else y :: insertNat x ys

/-- `sorted` on a list of naturals. -/
def sortNats : List Nat → List Nat
  | [] => []
  | x :: xs => insertNat x (sortNats xs)

/-- Insertion step for sorting strings in code-point order. -/
def insertStr (x : PyStr) : List PyStr → List PyStr
  | [] => [x]
  | y :: ys => if pyStrLtB x y then x :: y :: ys else y :: insertStr x ys

/-- `sorted` on a list of strings. -/
def sortStrs : List PyStr → List PyStr
  | [] => []
  | x :: xs => insertStr x (sortStrs xs)

/-- `str(b.extra.get("block_type", "normal")).lower()`. -/
def blockTypeOf (b : TextBlock) : PyStr :=
  pyLowerStr (b.block_type.getD "normal".data)

/-- The `page_numbers` set, in first-occurrence order (`if b.page:` keeps
only truthy pages). -/
def pageSet (blocks : List TextBlock) : List Nat :=
  blocks.foldl
    (fun acc b => if b.page ≠ 0 ∧ ¬ b.page ∈ acc then acc ++ [b.page] else acc)
    []

/-- The `block_types` set, in first-occurrence order (`if b_type:` keeps
only truthy type names). -/
def btypeSet (blocks : List TextBlock) : List PyStr :=
  blocks.foldl
    (fun acc b =>
      let bt := blockTypeOf b
      if bt ≠ [] ∧ ¬ bt ∈ acc then acc ++ [bt] else acc)
    []

/-- The display section of a group: `group.get("section") or "General"`,
truncated to 47 characters plus `"..."` when longer than 50. -/
def groupSection (g : TextGroup) : PyStr :=
  let s0 := match g.sect with
    | none => "General".data
    | some s => if s = [] then "General".data else s
  if 50 < s0.length then s0.take 47 ++ "...".data else s0

/-- `raw_text = "\n".join(b.content for b in blocks)`. -/
def groupRawText (g : TextGroup) : PyStr :=
  joinNL (g.blocks.map (fun b => b.content))

/-- The `intent` list of the group's `semantic_meta =
_extract_intent_and_entities(raw_text, section)`. -/
def groupIntents (g : TextGroup) : List PyStr :=
  extractIntents (groupRawText g) (groupSection g)

/-- `doc_id = blocks[0].doc_id if blocks else "unknown"`. -/
def groupDocId (g : TextGroup) : PyStr :=
  match g.blocks with
  | [] => "unknown".data
  | b :: _ => b.doc_id

/-- The assembled (pre-truncation) content of a text group: the optional
safety/troubleshooting banner, then for each block an optional
warning/note marker line followed by the block's original content, all
joined by newlines. -/
def assembleRawContent (g : TextGroup) : PyStr :=
  let intents := groupIntents g
  let headParts : List PyStr :=
    if "safety".data ∈ intents then ["⚠️ [ข้อควรระวัง]".data]
    else if "troubleshooting".data ∈ intents then ["🔧 [การแก้ปัญหา]".data]
    else []
  let blockParts : List (List PyStr) := g.blocks.map (fun b =>
    let bt := blockTypeOf b
    (if bt = "warning".data then ["⚠️".data]
     else if bt = "note".data then ["ℹ️".data]
     else []) ++ [b.content])
  joinNL (headParts ++ blockParts.flatten)

/-- The visible truncation marker appended to over-long text content. -/
def textTruncMarker : PyStr := "\n...[ตัดทอนเนื้อหา]...".data

/-- The visible truncation marker appended to over-long table content. -/
def tableTruncMarker : PyStr := "\n...[ตัดทอนตาราง]...".data

/-- The shared truncation guard: content longer than `_MAX_CHUNK_CHARS` is
cut to `_MAX_CHUNK_CHARS - 50` characters and the marker is appended. -/
def truncateContent (marker s : PyStr) : PyStr :=
  if MAX_CHUNK_CHARS < s.length then s.take (MAX_CHUNK_CHARS - 50) ++ marker
  else s

/-- Chunk metadata: the union of the fields written by text and table
chunking (each kind leaves the other kind's fields at their defaults; the
entity/scope fields, which no verified claim reads, are not modelled). -/
structure ChunkMeta where
  doc_id : PyStr
  page : Option Nat := none
  pages : List Nat := []
  sect : PyStr := []
  primary_intent : PyStr := []
  intents : List PyStr := []
  char_count : Nat := 0
  block_types : List PyStr := []
  dominant_block_type : PyStr := []
  table_id : PyStr := []
  columns : List PyStr := []
  has_summary : Bool := false
  html_content : PyStr := []
  markdown_content : PyStr := []
  category : PyStr := []
  role : PyStr := []
  html_trusted : Bool := false
  source : PyStr := []
deriving DecidableEq, Repr

/-- A retrieval chunk (`Chunk` from `chunking.py`). -/
structure Chunk where
  id : PyStr
  doc_id : PyStr
  doc_type : PyStr
  source : PyStr
  page : Option Nat := none
  content : PyStr
  metadata : ChunkMeta
deriving DecidableEq, Repr

/-- `_format_chunk_content` from `chunking.py`: the truncated content and
the metadata dict. -/
def formatChunkContent (g : TextGroup) : PyStr × ChunkMeta :=
  let sect := groupSection g
  let intents := groupIntents g
  let content := truncateContent textTruncMarker (assembleRawContent g)
  let sortedPages := sortNats (pageSet g.blocks)
  let btypes := btypeSet g.blocks
  let dominant :=
    if "warning".data ∈ btypes then "warning".data
    else if "step".data ∈ btypes then "step".data
    else "normal".data
  (content,
   { doc_id := groupDocId g,
     page := sortedPages.head?,
     pages := sortedPages.take 10,
     sect := sect,
     primary_intent := select_primary_intent intents,
     intents := intents,
     char_count := content.length,
     block_types := (sortStrs btypes).take 5,
     dominant_block_type := dominant,
     source := "text".data })

/-- The semantic fingerprint `content + "|" + primary_intent + "|" +
section` of PATCH 4 (the md5 digest of this string is modelled as the
string itself, md5 being assumed collision-free, so the chunk id carries
the full fingerprint in place of its 8-hex-digit prefix). -/
def chunkFingerprint (content primary sect : PyStr) : PyStr :=
  content ++ '|' :: primary ++ '|' :: sect

/-- The fingerprint a built chunk carries (recomputed from its stored
content and metadata, which equal the values used at build time). -/
def chunkFp (c : Chunk) : PyStr :=
  chunkFingerprint c.content c.metadata.primary_intent c.metadata.sect

/-- `doc_type = bundle.texts[0].doc_type if bundle.texts and
bundle.texts[0].doc_type else "manual"`. -/
def textDocType (texts : List TextBlock) : PyStr :=
  match texts with
  | [] => "manual".data
  | t :: _ =>
    match t.doc_type with
    | none => "manual".data
    | some s => if s = [] then "manual".data else s

/-- The content component of `_format_chunk_content` for a group. -/
def groupContent (g : TextGroup) : PyStr := (formatChunkContent g).1

theorem groupContent_eq (g : TextGroup) :
    groupContent g
      = truncateContent textTruncMarker (assembleRawContent g) := by
  simp [groupContent, formatChunkContent]


/-- The metadata component of `_format_chunk_content` for a group. -/
def groupMeta (g : TextGroup) : ChunkMeta := (formatChunkContent g).2

/-- The semantic fingerprint of a group, as computed in
`text_items_to_chunks` from the formatted content and metadata. -/
def groupFp (g : TextGroup) : PyStr :=
  chunkFingerprint (groupContent g) (groupMeta g).primary_intent
    (groupMeta g).sect

/-- The chunk record built for a non-duplicate group. -/
def mkTextChunk (docType : PyStr) (g : TextGroup) : Chunk :=
  { id := (groupMeta g).doc_id ++ "::".data ++ groupFp g,
    doc_id := (groupMeta g).doc_id,
    doc_type := docType,
    source := "text".data,
    page := (groupMeta g).page,
    content := groupContent g,
    metadata := groupMeta g }

theorem content_mkTextChunk (docType : PyStr) (g : TextGroup) :
    (mkTextChunk docType g).content = groupContent g := by
  simp [mkTextChunk]

/-- The dedup loop of `text_items_to_chunks`: skip groups with blank
content, skip fingerprints already seen, otherwise emit a chunk and record
the fingerprint. -/
def buildTextChunks (docType : PyStr) (seen : List PyStr) :
    List TextGroup → List Chunk
  | [] => []
  | g :: gs =>
    if pyStrip (groupContent g) = [] then buildTextChunks docType seen gs
    else if groupFp g ∈ seen then buildTextChunks docType seen gs
    else mkTextChunk docType g :: buildTextChunks docType (groupFp g :: seen) gs

/-- A table item (`TableItem` from `models.py`) with the `extra` dict keys
and item attributes read by `_normalize_table_extra`; `none` models an
absent key/attribute (or a `None` value), `some []` an empty string.  Row
cells are strings (`str(c or "")` upstream makes any cell a string). -/
structure TableItem where
  id : PyStr
  doc_id : PyStr
  page : Nat
  name : Option PyStr := none
  columns : List PyStr := []
  rows : List (List PyStr) := []
  doc_type : Option PyStr := none
  extra_summary : Option PyStr := none
  extra_category : Option PyStr := none
  extra_markdown_content : Option PyStr := none
  extra_markdown : Option PyStr := none
  extra_html_content : Option PyStr := none
  extra_html : Option PyStr := none
  extra_role : Option PyStr := none
  attr_summary : Option PyStr := none
  attr_category : Option PyStr := none
  attr_markdown : Option PyStr := none
  attr_html : Option PyStr := none
  attr_role : Option PyStr := none
deriving DecidableEq, Repr

/-- Truthiness of an optional string (`None` and `""` are falsy). -/
def optTruthy : Option PyStr → Bool
  | none => false
  | some s => decide (s ≠ [])

/-- Python `a or b` on optional strings: `a` when truthy, else `b`'s raw
value. -/
def orPy (a b : Option PyStr) : Option PyStr :=
  if optTruthy a then a else b

/-- `str(x)` on an optional string: `None` renders as the literal string
`"None"`. -/
def pyStrOf : Option PyStr → PyStr
  | none => "None".data
  | some s => s

/-- The result record of `_normalize_table_extra`. -/
structure NormExtra where
  summary : PyStr
  category : PyStr
  markdown_content : PyStr
  html_content : PyStr
  role : PyStr
deriving DecidableEq, Repr

/-- `_normalize_table_extra` from `chunking.py`: each field falls back from
`extra[key]` to the item attribute to a default, with the source's exact
truthiness and `str(...)` conversions (a markdown/html chain ending in
`None` renders as the string `"None"`, as `str(None)` does). -/
def normalize_table_extra (item : TableItem) : NormExtra :=
  let summary0 :=
    if optTruthy item.extra_summary then item.extra_summary.getD []
    else match item.attr_summary with
      | some v => v
      | none => []
  let category0 :=
    if optTruthy item.extra_category then item.extra_category.getD []
    else if optTruthy item.attr_category then item.attr_category.getD []
    else "general".data
  let markdown0 := orPy item.extra_markdown_content item.extra_markdown
  let markdown1 :=
    if optTruthy markdown0 then markdown0
    else match item.attr_markdown with
      | some v => some v
      | none => markdown0
  let html0 := orPy item.extra_html_content item.extra_html
  let html1 :=
    if optTruthy html0 then html0
    else match item.attr_html with
      | some v => some v
      | none => html0
  let role0 :=
    if optTruthy item.extra_role then item.extra_role.getD []
    else if optTruthy item.attr_role then item.attr_role.getD []
    else []
  { summary := pyStrip summary0,
    category := pyLowerStr (pyStrip category0),
    markdown_content := pyStrip (pyStrOf markdown1),
    html_content := pyStrip (pyStrOf html1),
    role := pyLowerStr (pyStrip role0) }

/-- `_generate_table_semantic_rows` from `chunking.py`: sample at most 15
rows, render each non-empty row as up to five `col=cell` pairs (skipping
blank or over-long cells), and append the `"... และอีก N รายการ"` suffix
when rows were cut. -/
def table_semantic_rows (t : TableItem) : PyStr :=
  if t.rows = [] ∨ t.columns = [] then []
  else
    let rowLines := (t.rows.take 15).filterMap (fun row =>
      if row = [] then none
      else
        let cells := row.map pyStrip
        if cells.all (fun c => c = []) then none
        else
          let rowParts := cells.enum.filterMap (fun jc =>
            let j := jc.1
            let cell := jc.2
            if cell = [] ∨ 100 < cell.length then none
            else
              let col := t.columns.getD j ("Col".data ++ natStr (j + 1))
              some (col ++ '=' :: cell))
          if rowParts = [] then none
          else some (joinSep " | ".data (rowParts.take 5)))
    let rowLines2 :=
      if 15 < t.rows.length then
        rowLines ++ ["... และอีก ".data ++ natStr (t.rows.length - 15)
          ++ " รายการ".data]
      else rowLines
    joinNL rowLines2

/-- `item.doc_type or "manual"`. -/
def tableDocType (item : TableItem) : PyStr :=
  match item.doc_type with
  | none => "manual".data
  | some s => if s = [] then "manual".data else s

/-- The assembled (pre-truncation) unified content of a table chunk: name
banner, category line, (possibly truncated) summary, small-table column
list, sampled rows or the no-detail fallback. -/
def tableRawContent (item : TableItem) : PyStr :=
  let ne := normalize_table_extra item
  let summary := ne.summary
  let category := ne.category
  let summary2 :=
    if 300 < summary.length then summary.take 297 ++ "...".data else summary
  let nameParts : List PyStr :=
    match item.name with
    | some n => if n ≠ [] then ["📊 ".data ++ n] else []
    | none => []
  let catParts : List PyStr :=
    if category ≠ [] ∧ category ≠ "general".data then
      ["ประเภท: ".data ++ category]
    else []
  let sumParts : List PyStr := if summary ≠ [] then [summary2] else []
  let colParts : List PyStr :=
    if item.columns ≠ [] ∧ item.columns.length ≤ 10 then
      (let cols := item.columns.filter (fun c => c ≠ [])
       if cols ≠ [] then ["คอลัมน์: ".data ++ joinSep ", ".data cols] else [])
    else []
  let srows := table_semantic_rows item
  let rowParts : List PyStr :=
    if srows ≠ [] then ["\nข้อมูลตาราง:\n".data ++ srows]
    else if summary = [] then ["ตารางข้อมูล (ไม่มีรายละเอียด)".data]
    else []
  joinNL (nameParts ++ catParts ++ sumParts ++ colParts ++ rowParts)

/-- `combined_for_intent = f"{item.name or ''}\n{summary}\n{unified}"`
(`summary` holds its possibly-300-truncated value at that point). -/
def tableCombinedForIntent (item : TableItem) (unified : PyStr) : PyStr :=
  let ne := normalize_table_extra item
  let summary2 :=
    if 300 < ne.summary.length then ne.summary.take 297 ++ "...".data
    else ne.summary
  (match item.name with | some n => n | none => []) ++ '\n' :: summary2
    ++ '\n' :: unified

/-- `table_items_to_chunks` from `chunking.py`: exactly one chunk per
table, with sanitized HTML and capped markdown stored only in metadata. -/
def table_items_to_chunks (bundle_tables : List TableItem) : List Chunk :=
  bundle_tables.map (fun item =>
    let ne := normalize_table_extra item
    let summary := ne.summary
    let category := ne.category
    let role := ne.role
    let safe_html := sanitize_html_content ne.html_content
    let safe_markdown := ne.markdown_content.take 2000
    let unified := truncateContent tableTruncMarker (tableRawContent item)
    let intents := extractIntents (tableCombinedForIntent item unified) category
    { id := item.doc_id ++ "::table::".data ++ item.id,
      doc_id := item.doc_id,
      doc_type := tableDocType item,
      source := "table".data,
      page := some item.page,
      content := unified,
      metadata :=
        { doc_id := item.doc_id,
          page := some item.page,
          primary_intent := select_primary_intent intents,
          intents := intents,
          table_id := item.id,
          columns := item.columns,
          has_summary := summary ≠ [],
          html_content := safe_html,
          markdown_content := safe_markdown,
          category := category,
          role := role,
          html_trusted := false,
          source := "table".data } })

/-- A document bundle restricted to the text and table collections (image
chunking is outside every verified claim). -/
structure DocumentBundle where
  texts : List TextBlock := []
  tables : List TableItem := []
deriving DecidableEq, Repr

/-- `text_items_to_chunks` from `chunking.py`. -/
def text_items_to_chunks (bundle : DocumentBundle) : List Chunk :=
  let valid := bundle.texts.filter (fun t => has_meaningful_text t.content)
  if valid = [] then []
  else buildTextChunks (textDocType bundle.texts) []
    (group_blocks_semantically valid)

/-- `table_items_to_chunks` applied to a bundle. -/
def tableChunksOf (bundle : DocumentBundle) : List Chunk :=
  table_items_to_chunks bundle.tables

end Chunking

-- ===================================================================
-- C5 and C9 : length/truncation invariant, determinism and dedup
-- ===================================================================

theorem truncateContent_length {marker : PyStr} (s : PyStr)
    (hm : marker.length ≤ 50) :
    (Chunking.truncateContent marker s).length ≤ Chunking.MAX_CHUNK_CHARS := by
  unfold Chunking.truncateContent
  by_cases h : Chunking.MAX_CHUNK_CHARS < s.length
  · rw [if_pos h]
    rw [List.length_append, List.length_take]
    unfold Chunking.MAX_CHUNK_CHARS at *
    omega
  · rw [if_neg h]
    omega

theorem mem_buildTextChunks {dt : PyStr} :
    ∀ (gs : List Chunking.TextGroup) (seen : List PyStr) (c : Chunking.Chunk),
    c ∈ Chunking.buildTextChunks dt seen gs →
    ∃ g, c.content
      = Chunking.truncateContent Chunking.textTruncMarker
          (Chunking.assembleRawContent g) := by
  intro gs
  induction gs with
  | nil =>
    intro seen c hc
    simp [Chunking.buildTextChunks] at hc
  | cons g gs ih =>
    intro seen c hc
    rw [Chunking.buildTextChunks] at hc
    by_cases h1 : pyStrip (Chunking.groupContent g) = []
    · rw [if_pos h1] at hc
      exact ih _ c hc
    · rw [if_neg h1] at hc
      by_cases h2 : Chunking.groupFp g ∈ seen
      · rw [if_pos h2] at hc
        exact ih _ c hc
      · rw [if_neg h2] at hc
        rcases List.mem_cons.mp hc with rfl | hc'
        · exact ⟨g, (Chunking.content_mkTextChunk dt g).trans
            (Chunking.groupContent_eq g)⟩
        · exact ih _ c hc'

theorem mem_tableChunks (tables : List Chunking.TableItem)
    (c : Chunking.Chunk) (hc : c ∈ Chunking.table_items_to_chunks tables) :
    ∃ item, c.content
      = Chunking.truncateContent Chunking.tableTruncMarker
          (Chunking.tableRawContent item) := by
  unfold Chunking.table_items_to_chunks at hc
  obtain ⟨item, -, rfl⟩ := List.mem_map.mp hc
  exact ⟨item, by simp⟩

/-- C5: every chunk produced by text or table chunking has content length at
most the fixed maximum (1200); the content is the truncation-guarded form of
an assembled string, and whenever the assembled content exceeds the maximum
the stored content is its 1150-character truncation ending with the visible
truncation marker. -/
theorem C5_theorem (b : Chunking.DocumentBundle) (c : Chunking.Chunk)
    (hc : c ∈ Chunking.text_items_to_chunks b ∨ c ∈ Chunking.tableChunksOf b) :
    c.content.length ≤ Chunking.MAX_CHUNK_CHARS
    ∧ ∃ assembled marker,
        (marker = Chunking.textTruncMarker ∨ marker = Chunking.tableTruncMarker)
        ∧ c.content = Chunking.truncateContent marker assembled
        ∧ (Chunking.MAX_CHUNK_CHARS < assembled.length →
            c.content
              = assembled.take (Chunking.MAX_CHUNK_CHARS - 50) ++ marker
            ∧ marker <:+ c.content) := by
  have key : ∃ assembled marker,
      (marker = Chunking.textTruncMarker ∨ marker = Chunking.tableTruncMarker)
      ∧ c.content = Chunking.truncateContent marker assembled := by
    rcases hc with hc | hc
    · simp only [Chunking.text_items_to_chunks] at hc
      split at hc
      · simp at hc
      · obtain ⟨g, hg⟩ := mem_buildTextChunks _ _ c hc
        exact ⟨_, _, Or.inl rfl, hg⟩
    · obtain ⟨item, hi⟩ := mem_tableChunks _ c hc
      exact ⟨_, _, Or.inr rfl, hi⟩
  obtain ⟨assembled, marker, hm, hcc⟩ := key
  have hmlen : marker.length ≤ 50 := by
    rcases hm with rfl | rfl <;> decide
  refine ⟨hcc ▸ truncateContent_length assembled hmlen,
    assembled, marker, hm, hcc, ?_⟩
  intro hlong
  have ht : Chunking.truncateContent marker assembled
      = assembled.take (Chunking.MAX_CHUNK_CHARS - 50) ++ marker := by
    unfold Chunking.truncateContent
    rw [if_pos hlong]
  exact ⟨hcc.trans ht, by rw [hcc, ht]; exact List.suffix_append _ _⟩

/-- A concrete one-table bundle used to exercise the chunkers. -/
def c5bundle : Chunking.DocumentBundle :=
  { tables := [{ id := "t1".data, doc_id := "d1".data, page := 1,
                 name := some "Revenue".data }] }

/-- The single chunk built from `c5bundle`'s table. -/
def c5chunk : Chunking.Chunk :=
  (Chunking.tableChunksOf c5bundle).headD
    { id := [], doc_id := [], doc_type := [], source := [], content := [],
      metadata := { doc_id := [] } }

/-- C5 witness: the invariant at the concrete table chunk of `c5bundle`. -/
theorem C5_witness :
    c5chunk.content.length ≤ Chunking.MAX_CHUNK_CHARS
    ∧ ∃ assembled marker,
        (marker = Chunking.textTruncMarker ∨ marker = Chunking.tableTruncMarker)
        ∧ c5chunk.content = Chunking.truncateContent marker assembled
        ∧ (Chunking.MAX_CHUNK_CHARS < assembled.length →
            c5chunk.content
              = assembled.take (Chunking.MAX_CHUNK_CHARS - 50) ++ marker
            ∧ marker <:+ c5chunk.content) :=
  C5_theorem c5bundle c5chunk (Or.inr (by decide))

theorem chunkFp_mkTextChunk (dt : PyStr) (g : Chunking.TextGroup) :
    Chunking.chunkFp (Chunking.mkTextChunk dt g) = Chunking.groupFp g := by
  simp [Chunking.chunkFp, Chunking.mkTextChunk, Chunking.groupFp]

theorem buildTextChunks_nodup {dt : PyStr} :
    ∀ (gs : List Chunking.TextGroup) (seen : List PyStr),
    (((Chunking.buildTextChunks dt seen gs).map Chunking.chunkFp).Nodup
    ∧ ∀ c ∈ Chunking.buildTextChunks dt seen gs, ¬ Chunking.chunkFp c ∈ seen)
    := by
  intro gs
  induction gs with
  | nil =>
    intro seen
    simp [Chunking.buildTextChunks]
  | cons g gs ih =>
    intro seen
    rw [Chunking.buildTextChunks]
    by_cases h1 : pyStrip (Chunking.groupContent g) = []
    · rw [if_pos h1]
      exact ih seen
    · rw [if_neg h1]
      by_cases h2 : Chunking.groupFp g ∈ seen
      · rw [if_pos h2]
        exact ih seen
      · rw [if_neg h2]
        obtain ⟨hnd, hseen⟩ := ih (Chunking.groupFp g :: seen)
        constructor
        · rw [List.map_cons, List.nodup_cons]
          refine ⟨?_, hnd⟩
          intro hmem
          obtain ⟨c, hcmem, hceq⟩ := List.mem_map.mp hmem
          refine (hseen c hcmem) ?_
          rw [hceq, chunkFp_mkTextChunk]
          exact List.mem_cons_self _ _
        · intro c hc
          rcases List.mem_cons.mp hc with rfl | hc'
          · rw [chunkFp_mkTextChunk]
            exact h2
          · intro hmem
            exact (hseen c hc') (List.mem_cons_of_mem _ hmem)

/-- C9: text chunk construction is a pure function — equal (unchanged)
bundles give identical chunk lists, hence identical fingerprints/ids — and
within one build the semantic fingerprints (content, primary intent,
section) of the produced chunks are pairwise distinct: two groups with
identical fingerprint yield exactly one chunk. -/
theorem C9_theorem (b₁ b₂ : Chunking.DocumentBundle) (h : b₁ = b₂) :
    Chunking.text_items_to_chunks b₁ = Chunking.text_items_to_chunks b₂
    ∧ ((Chunking.text_items_to_chunks b₁).map Chunking.chunkFp).Nodup := by
  subst h
  refine ⟨rfl, ?_⟩
  simp only [Chunking.text_items_to_chunks]
  split
  · simp
  · exact (buildTextChunks_nodup _ _).1

/-- A concrete bundle with a duplicated text group (the `H1` heading forces
a break, producing two groups with identical content, intent and section). -/
def c9bundle : Chunking.DocumentBundle :=
  { texts :=
      [{ doc_id := "d1".data, page := 1, content := "hello chunk test".data },
       { doc_id := "d1".data, page := 2, content := "hello chunk test".data,
         heading_level := some "H1".data }] }

/-- C9 witness: the theorem at the concrete duplicated bundle. -/
theorem C9_witness :
    Chunking.text_items_to_chunks c9bundle
      = Chunking.text_items_to_chunks c9bundle
    ∧ ((Chunking.text_items_to_chunks c9bundle).map Chunking.chunkFp).Nodup :=
  C9_theorem c9bundle c9bundle rfl

-- ===================================================================
-- vector_store.py : filters, search with auto-heal
-- ===================================================================

namespace VectorStore

/-- The `where_filter` dict built by `search_similar`: up to three scalar
equality constraints. -/
structure WhereFilter where
  doc_id : Option PyStr := none
  source : Option PyStr := none
  doc_type : Option PyStr := none
deriving DecidableEq, Repr

/-- The native equality match Chroma applies for a `where` dict (missing
metadata never matches a constraint). -/
def matchWhere (w : WhereFilter) (d : PyDoc) : Bool :=
  (match w.doc_id with
   | none => true
   | some v => decide (d.doc_id = some v)) &&
  (match w.source with
   | none => true
   | some v => decide (d.source = some v)) &&
  (match w.doc_type with
   | none => true
   | some v => decide (d.doc_type = some v))

/-- One step of the filter-construction logic of `search_similar` for the
`sources`/`doc_types` fields: a singleton value is written into the dict
when it is still alive, a multi-valued filter forces `None`, an absent
filter leaves the dict unchanged. -/
def stepFilter (vals : List PyStr)
    (upd : WhereFilter → Option PyStr → WhereFilter)
    (w : Option WhereFilter) : Option WhereFilter :=
  if vals ≠ [] then
    (if vals.length = 1 then
      (match w with
       | some x => some (upd x vals.head?)
       | none => none)
    else none)
  else w

/-- The filter-construction logic of `search_similar`: single values become
native equality constraints, any multi-valued field forces the Python
filter (`where_filter = None`); empty lists model falsy (absent) filters. -/
def buildWhere (sanitizedDocIds sources docTypes : List PyStr) :
    Option WhereFilter :=
  let w1 : Option WhereFilter :=
    if sanitizedDocIds ≠ [] then
      (match sanitizedDocIds with
       | [d] => some { doc_id := some d }
       | _ => none)
    else some {}
  stepFilter docTypes (fun x v => { x with doc_type := v })
    (stepFilter sources (fun x v => { x with source := v }) w1)

/-- `_python_filter_documents` from `vector_store.py`: sanitize the
requested ids, and keep a document only when each requested filter matches
(missing or falsy metadata never matches; the stored id is sanitized before
comparison). -/
def python_filter_documents (raw_docs : List PyDoc)
    (doc_ids sources doc_types : List PyStr) : List PyDoc :=
  let sanitizedSet := doc_ids.map sanitize_doc_id
  raw_docs.filter (fun d =>
    (if doc_ids ≠ [] then
      (match d.doc_id with
       | none => false
       | some f =>
         if f = [] then false
         else decide (sanitize_doc_id f ∈ sanitizedSet))
     else true) &&
    (if sources ≠ [] then
      (match d.source with
       | none => false
       | some s => if s = [] then false else decide (s ∈ sources))
     else true) &&
    (if doc_types ≠ [] then
      (match d.doc_type with
       | none => false
       | some t => if t = [] then false else decide (t ∈ doc_types))
     else true))

/-- The outcome of one `vectordb.similarity_search` call. -/
inductive SimResult
  | ok (docs : List PyDoc)
  | err (msg : PyStr)
deriving DecidableEq, Repr

/-- A Chroma client handle: a ranked document store plus an optional fault
(`some msg` models every `similarity_search` on this handle raising `msg`).
A filtered search honours the native equality contract; an unfiltered
search returns the top of the ranking. -/
structure Backend where
  store : List PyDoc
  fault : Option PyStr := none
deriving DecidableEq, Repr

/-- `vectordb.similarity_search(query, k, filter?)`. -/
def Backend.search (be : Backend) (wf : Option WhereFilter) (k : Nat) :
    SimResult :=
  match be.fault with
  | some m => .err m
  | none =>
    match wf with
    | some w => .ok ((be.store.filter (matchWhere w)).take k)
    | none => .ok (be.store.take k)

/-- `is_db_corruption` from `search_similar`'s except block: the explicit
error-signature match (the `isinstance(e, ChromaInternalError)` escape is
subsumed by the `"InternalError"` signature in this message-level model). -/
def is_db_corruption (msg : PyStr) : Bool :=
  Chunking.containsSub "Nothing found on disk".data msg ||
  Chunking.containsSub "InternalError".data msg ||
  Chunking.containsSub "segment reader".data msg ||
  Chunking.containsSub "sqlite".data (pyLowerStr msg) ||
  Chunking.containsSub "Error finding id".data msg

/-- The Python-filter search path: over-fetch `max(k*10, 50)` unfiltered
documents and filter in application code, keeping `k`. -/
def pythonAttempt (db : Backend) (k : Nat)
    (doc_ids sources doc_types : List PyStr) : SimResult :=
  match db.search none (max (k * 10) 50) with
  | .ok raw => .ok ((python_filter_documents raw doc_ids sources doc_types).take k)
  | .err m => .err m

/-- The body of `search_similar`'s try block: native filter when usable,
falling back to the Python filter when the native filter returns nothing. -/
def tryBlock (db : Backend) (wf : Option WhereFilter) (use_native : Bool)
    (k : Nat) (doc_ids sources doc_types : List PyStr) : SimResult :=
  if use_native then
    match db.search wf k with
    | .err m => .err m
    | .ok results =>
      if results = [] then pythonAttempt db k doc_ids sources doc_types
      else .ok results
  else pythonAttempt db k doc_ids sources doc_types

/-- `[sanitize_doc_id(d) for d in doc_ids if d]`. -/
def sanitizedOf (doc_ids : List PyStr) : List PyStr :=
  (doc_ids.filter (fun d => d ≠ [])).map sanitize_doc_id

/-- `where_filter is not None and where_filter != {}`. -/
def useNative (wf : Option WhereFilter) : Bool :=
  decide (wf ≠ none) && decide (wf ≠ some {})

/-- `search_similar` from `vector_store.py`: empty queries raise; the try
block runs against the cached client `db`; a recognized transient fault
forces a reload (the retry runs against the rebuilt client `reloadedDb`,
Python-filtered at `k*10`), a failed retry returns `[]`, and an
unrecognized fault is re-raised. -/
def search_similar (db reloadedDb : Backend) (query : PyStr) (k : Nat)
    (doc_ids sources doc_types : List PyStr) : Except PyStr (List PyDoc) :=
  if pyStrip query = [] then .error "Empty query".data
  else
    match tryBlock db (buildWhere (sanitizedOf doc_ids) sources doc_types)
        (useNative (buildWhere (sanitizedOf doc_ids) sources doc_types))
        k doc_ids sources doc_types with
    | .ok results => .ok results
    | .err m =>
      if is_db_corruption m then
        match reloadedDb.search none (k * 10) with
        | .ok raw =>
          .ok ((python_filter_documents raw doc_ids sources doc_types).take k)
        | .err _ => .ok []
      else .error m

end VectorStore

-- ===================================================================
-- C6 : auto-heal on recognized transient faults
-- ===================================================================

theorem tryBlock_fault (st : List PyDoc) (m : PyStr)
    (wf : Option VectorStore.WhereFilter) (un : Bool) (k : Nat)
    (dids srcs dts : List PyStr) :
    VectorStore.tryBlock ⟨st, some m⟩ wf un k dids srcs dts
      = VectorStore.SimResult.err m := by
  cases un <;>
    simp [VectorStore.tryBlock, VectorStore.pythonAttempt,
      VectorStore.Backend.search]

/-- C6: when the cached client raises a recognized transient storage fault,
`search_similar` rebuilds the client and retries exactly once — a
successful retry returns the Python-filtered over-fetch from the rebuilt
client, a failing retry returns the empty list instead of propagating, and
an unrecognized fault is re-raised. -/
theorem C6_theorem (st1 st2 : List PyDoc) (m m2 q : PyStr) (k : Nat)
    (dids srcs dts : List PyStr) (hq : ¬ pyStrip q = []) :
    (VectorStore.is_db_corruption m = true →
      VectorStore.search_similar ⟨st1, some m⟩ ⟨st2, none⟩ q k dids srcs dts
        = Except.ok ((VectorStore.python_filter_documents (st2.take (k * 10))
            dids srcs dts).take k))
    ∧ (VectorStore.is_db_corruption m = true →
      VectorStore.search_similar ⟨st1, some m⟩ ⟨st2, some m2⟩ q k dids srcs dts
        = Except.ok [])
    ∧ (VectorStore.is_db_corruption m = false →
      VectorStore.search_similar ⟨st1, some m⟩ ⟨st2, none⟩ q k dids srcs dts
        = Except.error m) := by
  refine ⟨?_, ?_, ?_⟩ <;> intro hm <;>
    simp [VectorStore.search_similar, hq, tryBlock_fault, hm,
      VectorStore.Backend.search]

/-- C6 witness: a recognized sqlite fault on the cached client with a clean
rebuilt client yields the retried (Python-filtered) result; with a faulty
rebuilt client it yields the empty list; an unrecognized fault is
re-raised. -/
theorem C6_witness :
    VectorStore.search_similar
        ⟨[], some "sqlite disk I/O error".data⟩
        ⟨[{ page_content := "x".data, doc_id := some "d1".data }], none⟩
        "hello".data 1 [] [] []
      = Except.ok ((VectorStore.python_filter_documents
          (([{ page_content := "x".data,
               doc_id := some "d1".data }] : List PyDoc).take (1 * 10))
          [] [] []).take 1)
    ∧ VectorStore.search_similar
        ⟨[], some "sqlite disk I/O error".data⟩
        ⟨[{ page_content := "x".data, doc_id := some "d1".data }],
          some "sqlite again".data⟩
        "hello".data 1 [] [] []
      = Except.ok []
    ∧ VectorStore.search_similar
        ⟨[], some "boom".data⟩
        ⟨[{ page_content := "x".data, doc_id := some "d1".data }], none⟩
        "hello".data 1 [] [] []
      = Except.error "boom".data :=
  ⟨(C6_theorem [] [{ page_content := "x".data, doc_id := some "d1".data }]
      "sqlite disk I/O error".data "sqlite again".data "hello".data 1
      [] [] [] (by decide)).1 (by decide),
   (C6_theorem [] [{ page_content := "x".data, doc_id := some "d1".data }]
      "sqlite disk I/O error".data "sqlite again".data "hello".data 1
      [] [] [] (by decide)).2.1 (by decide),
   (C6_theorem [] [{ page_content := "x".data, doc_id := some "d1".data }]
      "boom".data "sqlite again".data "hello".data 1
      [] [] [] (by decide)).2.2 (by decide)⟩

-- ===================================================================
-- C3 : document-scoped search never crosses documents
-- ===================================================================

theorem vs_sanitize_idem (s : PyStr) :
    VectorStore.sanitize_doc_id (VectorStore.sanitize_doc_id s)
      = VectorStore.sanitize_doc_id s :=
  sanitize_fixed_of_docId (sanitize_output_chars s)

theorem mem_python_filter {raw : List PyDoc} {dids srcs dts : List PyStr}
    {d : PyDoc}
    (hd : d ∈ VectorStore.python_filter_documents raw dids srcs dts)
    (hne : dids ≠ []) :
    ∃ f, d.doc_id = some f ∧
      VectorStore.sanitize_doc_id f
        ∈ dids.map VectorStore.sanitize_doc_id := by
  unfold VectorStore.python_filter_documents at hd
  obtain ⟨-, hp⟩ := List.mem_filter.mp hd
  simp only [Bool.and_eq_true] at hp
  obtain ⟨⟨h1, -⟩, -⟩ := hp
  rw [if_pos hne] at h1
  cases hdi : d.doc_id with
  | none => rw [hdi] at h1; simp at h1
  | some f =>
    rw [hdi] at h1
    simp only at h1
    by_cases hf : f = []
    · rw [if_pos hf] at h1; simp at h1
    · rw [if_neg hf] at h1
      exact ⟨f, rfl, of_decide_eq_true h1⟩

theorem python_filter_nil {raw : List PyDoc} {dids srcs dts : List PyStr}
    (hne : dids ≠ [])
    (h : ∀ d ∈ raw, ∀ f, d.doc_id = some f →
      VectorStore.sanitize_doc_id f
        ∉ dids.map VectorStore.sanitize_doc_id) :
    VectorStore.python_filter_documents raw dids srcs dts = [] := by
  unfold VectorStore.python_filter_documents
  rw [List.filter_eq_nil_iff]
  intro d hd
  simp only [Bool.and_eq_true, not_and]
  intro hp hC
  obtain ⟨h1, -⟩ := hp
  rw [if_pos hne] at h1
  cases hdi : d.doc_id with
  | none => rw [hdi] at h1; simp at h1
  | some f =>
    rw [hdi] at h1
    simp only at h1
    by_cases hf : f = []
    · rw [if_pos hf] at h1; simp at h1
    · rw [if_neg hf] at h1
      exact h d hd f hdi (of_decide_eq_true h1)

theorem stepFilter_docId {vals : List PyStr}
    {upd : VectorStore.WhereFilter → Option PyStr → VectorStore.WhereFilter}
    {w₀ : Option VectorStore.WhereFilter} {w : VectorStore.WhereFilter}
    (h : VectorStore.stepFilter vals upd w₀ = some w)
    (hupd : ∀ x v, (upd x v).doc_id = x.doc_id) :
    ∃ x, w₀ = some x ∧ w.doc_id = x.doc_id := by
  unfold VectorStore.stepFilter at h
  by_cases h1 : vals ≠ []
  · rw [if_pos h1] at h
    by_cases h2 : vals.length = 1
    · rw [if_pos h2] at h
      cases hw0 : w₀ with
      | none => rw [hw0] at h; simp at h
      | some x =>
        rw [hw0] at h
        simp only [Option.some.injEq] at h
        exact ⟨x, rfl, h ▸ hupd x vals.head?⟩
    · rw [if_neg h2] at h
      simp at h
  · rw [if_neg h1] at h
    exact ⟨w, h, rfl⟩

theorem buildWhere_docId {sl srcs dts : List PyStr}
    {w : VectorStore.WhereFilter}
    (hne : sl ≠ [])
    (hw : VectorStore.buildWhere sl srcs dts = some w) :
    ∃ v, w.doc_id = some v ∧ v ∈ sl := by
  simp only [VectorStore.buildWhere] at hw
  obtain ⟨x2, hx2, hd2⟩ := stepFilter_docId hw (fun x v => rfl)
  obtain ⟨x1, hx1, hd1⟩ := stepFilter_docId hx2 (fun x v => rfl)
  rw [if_pos hne] at hx1
  rcases sl with _ | ⟨d, _ | ⟨e, rest2⟩⟩
  · exact absurd rfl hne
  · simp only [Option.some.injEq] at hx1
    refine ⟨d, ?_, List.mem_cons_self d []⟩
    rw [hd2, hd1, ← hx1]
  · simp at hx1

theorem matchWhere_docId {w : VectorStore.WhereFilter} {d : PyDoc} {v : PyStr}
    (hm : VectorStore.matchWhere w d = true) (hv : w.doc_id = some v) :
    d.doc_id = some v := by
  unfold VectorStore.matchWhere at hm
  rw [hv] at hm
  simp only [Bool.and_eq_true, decide_eq_true_eq] at hm
  exact hm.1.1

theorem useNative_some {wf : Option VectorStore.WhereFilter}
    (h : VectorStore.useNative wf = true) : ∃ w, wf = some w := by
  unfold VectorStore.useNative at h
  simp only [Bool.and_eq_true, decide_eq_true_eq] at h
  cases wf with
  | none => exact absurd rfl h.1
  | some w => exact ⟨w, rfl⟩

theorem tryBlock_ok_cases {db : VectorStore.Backend}
    {wf : Option VectorStore.WhereFilter} {un : Bool} {k : Nat}
    {dids srcs dts : List PyStr} {docs : List PyDoc}
    (h : VectorStore.tryBlock db wf un k dids srcs dts
      = VectorStore.SimResult.ok docs)
    (hun : un = true → ∃ w, wf = some w) :
    (∃ w, wf = some w
      ∧ docs = (db.store.filter (VectorStore.matchWhere w)).take k)
    ∨ (∃ raw, raw ⊆ db.store
      ∧ docs = (VectorStore.python_filter_documents raw dids srcs dts).take k)
    := by
  unfold VectorStore.tryBlock at h
  cases un with
  | false =>
    rw [if_neg (by simp)] at h
    unfold VectorStore.pythonAttempt VectorStore.Backend.search at h
    cases hf : db.fault with
    | some m => rw [hf] at h; simp at h
    | none =>
      rw [hf] at h
      simp only [VectorStore.SimResult.ok.injEq] at h
      exact Or.inr ⟨db.store.take (max (k * 10) 50), List.take_subset _ _,
        h.symm⟩
  | true =>
    obtain ⟨w, rfl⟩ := hun rfl
    rw [if_pos rfl] at h
    unfold VectorStore.Backend.search at h
    cases hf : db.fault with
    | some m => rw [hf] at h; simp at h
    | none =>
      rw [hf] at h
      simp only [] at h
      by_cases hres : (db.store.filter (VectorStore.matchWhere w)).take k = []
      · rw [if_pos hres] at h
        unfold VectorStore.pythonAttempt VectorStore.Backend.search at h
        rw [hf] at h
        simp only [VectorStore.SimResult.ok.injEq] at h
        exact Or.inr ⟨db.store.take (max (k * 10) 50), List.take_subset _ _,
          h.symm⟩
      · rw [if_neg hres] at h
        simp only [VectorStore.SimResult.ok.injEq] at h
        exact Or.inl ⟨w, rfl, h.symm⟩

theorem sanitize_mem_of_sanitizedOf {dids : List PyStr} {v : PyStr}
    (hv : v ∈ VectorStore.sanitizedOf dids) :
    VectorStore.sanitize_doc_id v ∈ dids.map VectorStore.sanitize_doc_id := by
  unfold VectorStore.sanitizedOf at hv
  obtain ⟨d1, hd1, rfl⟩ := List.mem_map.mp hv
  rw [vs_sanitize_idem]
  exact List.mem_map_of_mem _ (List.mem_of_mem_filter hd1)

/-- C3: a document-scoped `search_similar` only ever returns documents
whose canonicalized id equals the canonicalization of a requested id — on
the native-filter path, the Python-filter fallback, and the post-fault
retry — and when no stored chunk (of the cached or rebuilt client) matches
the requested documents the result is empty rather than broadened. -/
theorem C3_theorem (db rdb : VectorStore.Backend) (q : PyStr) (k : Nat)
    (dids srcs dts : List PyStr) (docs : List PyDoc)
    (hne : ∃ d0 ∈ dids, d0 ≠ [])
    (hok : VectorStore.search_similar db rdb q k dids srcs dts
      = Except.ok docs) :
    (∀ d ∈ docs, ∃ f, d.doc_id = some f
      ∧ VectorStore.sanitize_doc_id f ∈ dids.map VectorStore.sanitize_doc_id)
    ∧ ((∀ d ∈ db.store, ∀ f, d.doc_id = some f →
          VectorStore.sanitize_doc_id f ∉ dids.map VectorStore.sanitize_doc_id) →
       (∀ d ∈ rdb.store, ∀ f, d.doc_id = some f →
          VectorStore.sanitize_doc_id f ∉ dids.map VectorStore.sanitize_doc_id) →
       docs = []) := by
  obtain ⟨d0, hd0mem, hd0ne⟩ := hne
  have hdne : dids ≠ [] := by
    intro hcon
    rw [hcon] at hd0mem
    simp at hd0mem
  have hsne : VectorStore.sanitizedOf dids ≠ [] := by
    have hmem : VectorStore.sanitize_doc_id d0 ∈ VectorStore.sanitizedOf dids :=
      List.mem_map_of_mem _ (List.mem_filter.mpr ⟨hd0mem, by simp [hd0ne]⟩)
    intro hcon
    rw [hcon] at hmem
    simp at hmem
  unfold VectorStore.search_similar at hok
  by_cases hq : pyStrip q = []
  · rw [if_pos hq] at hok
    simp at hok
  · rw [if_neg hq] at hok
    cases htb : VectorStore.tryBlock db
        (VectorStore.buildWhere (VectorStore.sanitizedOf dids) srcs dts)
        (VectorStore.useNative
          (VectorStore.buildWhere (VectorStore.sanitizedOf dids) srcs dts))
        k dids srcs dts with
    | ok results =>
      rw [htb] at hok
      simp only [Except.ok.injEq] at hok
      subst hok
      rcases tryBlock_ok_cases htb (fun hu => useNative_some hu) with
        ⟨w, hwf, hdocs⟩ | ⟨raw, hsub, hdocs⟩
      · obtain ⟨v, hv, hvmem⟩ := buildWhere_docId hsne hwf
        constructor
        · intro d hdmem
          rw [hdocs] at hdmem
          have hdf := List.mem_of_mem_take hdmem
          have hdid := matchWhere_docId (List.of_mem_filter hdf) hv
          exact ⟨v, hdid, sanitize_mem_of_sanitizedOf hvmem⟩
        · intro h1 _
          have hfil : db.store.filter (VectorStore.matchWhere w) = [] := by
            rw [List.filter_eq_nil_iff]
            intro d hd hmw
            have hdid := matchWhere_docId hmw hv
            exact h1 d hd v hdid (sanitize_mem_of_sanitizedOf hvmem)
          rw [hdocs, hfil, List.take_nil]
      · constructor
        · intro d hdmem
          rw [hdocs] at hdmem
          exact mem_python_filter (List.mem_of_mem_take hdmem) hdne
        · intro h1 _
          rw [hdocs, python_filter_nil hdne (fun d hd => h1 d (hsub hd)),
            List.take_nil]
    | err m =>
      rw [htb] at hok
      simp only [] at hok
      by_cases hcor : VectorStore.is_db_corruption m = true
      · rw [if_pos hcor] at hok
        unfold VectorStore.Backend.search at hok
        cases hf : rdb.fault with
        | some m2 =>
          rw [hf] at hok
          simp only [Except.ok.injEq] at hok
          subst hok
          exact ⟨by simp, fun _ _ => rfl⟩
        | none =>
          rw [hf] at hok
          simp only [Except.ok.injEq] at hok
          subst hok
          constructor
          · intro d hdmem
            exact mem_python_filter (List.mem_of_mem_take hdmem) hdne
          · intro _ h2
            rw [python_filter_nil hdne
              (fun d hd => h2 d (List.take_subset _ _ hd)), List.take_nil]
      · rw [if_neg hcor] at hok
        simp at hok

/-- A stored chunk of document `a` used to exercise the scoped search. -/
def c3docA : PyDoc :=
  { page_content := "alpha content".data, doc_id := some "a".data }

/-- A stored chunk of document `b` used to exercise the scoped search. -/
def c3docB : PyDoc :=
  { page_content := "beta content".data, doc_id := some "b".data }

/-- A healthy client whose store holds chunks of two documents. -/
def c3db : VectorStore.Backend := ⟨[c3docA, c3docB], none⟩

/-- A healthy rebuilt client with an empty store. -/
def c3rdb : VectorStore.Backend := ⟨[], none⟩

/-- C3 witness: searching scoped to doc_id "A" against the two-document
store returns exactly the chunk of document `a` (native path), and the
no-match clause is available at this concrete result. -/
theorem C3_witness :
    (∀ d ∈ [c3docA], ∃ f, d.doc_id = some f
      ∧ VectorStore.sanitize_doc_id f
          ∈ (["A".data] : List PyStr).map VectorStore.sanitize_doc_id)
    ∧ ((∀ d ∈ c3db.store, ∀ f, d.doc_id = some f →
          VectorStore.sanitize_doc_id f
            ∉ (["A".data] : List PyStr).map VectorStore.sanitize_doc_id) →
       (∀ d ∈ c3rdb.store, ∀ f, d.doc_id = some f →
          VectorStore.sanitize_doc_id f
            ∉ (["A".data] : List PyStr).map VectorStore.sanitize_doc_id) →
       [c3docA] = []) :=
  C3_theorem c3db c3rdb "q".data 2 ["A".data] [] [] [c3docA]
    ⟨"A".data, by decide, by decide⟩ rfl

-- ===================================================================
-- rag.py : table-reinjection post-processing (answer_question 746-776)
-- ===================================================================

/-- Python `\d` restricted to the scripts in play: ASCII and Thai digits. -/
def isPyDigit (c : Char) : Bool :=
  (decide (48 ≤ c.toNat) && decide (c.toNat ≤ 57)) ||
  (decide (0xe50 ≤ c.toNat) && decide (c.toNat ≤ 0xe59))

/-- The `[\d\.]` class of the numeric reinjection pattern. -/
def isDigitDot (c : Char) : Bool := isPyDigit c || c == '.'

namespace Rag

/-- Dict lookup on an insertion-ordered association list (Python dict keys
are unique by construction here). -/
def alookup : List (PyStr × PyStr) → PyStr → Option PyStr
  | [], _ => none
  | (k, v) :: rest, key => if k = key then some v else alookup rest key

/-- The `<div class='...'>` wrapper both replacement callbacks produce. -/
def divWrap (h : PyStr) : PyStr :=
  "\n<div class=\x27my-4 overflow-x-auto border rounded-lg shadow-sm bg-white p-2\x27>".data
    ++ h ++ "</div>\n".data

/-- Fuel-indexed `str.replace(pat, repl)` (non-overlapping, left to right;
the fuel, initially the string length, makes the recursion structural). -/
def replaceAllF (pat repl : PyStr) : Nat → PyStr → PyStr
  | 0, s => s
  | _ + 1, [] => []
  | fuel + 1, c :: rest =>
    if pat.isPrefixOf (c :: rest) then
      repl ++ replaceAllF pat repl fuel ((c :: rest).drop pat.length)
    else c :: replaceAllF pat repl fuel rest

/-- `str.replace(pat, repl)` for non-empty `pat`. -/
def replaceAll (pat repl s : PyStr) : PyStr := replaceAllF pat repl s.length s

/-- The `(?:SHOW_TABLE|SHOW|TABLE)` alternation, case-insensitively at the
start of the text after `[`; which alternative is consumed cannot change
the overall match because `[^:]*:` then skips to the first colon. -/
def keywordAfterBracket (t : PyStr) : Option PyStr :=
  if lowPrefix "show_table".data t then some (t.drop 10)
  else if lowPrefix "show".data t then some (t.drop 4)
  else if lowPrefix "table".data t then some (t.drop 5)
  else none

/-- One anchored attempt of the numeric pattern
`\[(?:SHOW_TABLE|SHOW|TABLE)[^:]*:\s*(?:TBL[_]?)?\s*([\d\.]+)\]`
(IGNORECASE): on success, the matched text (`group(0)`), the digit capture
(`group(1)`) and the remainder of the string.  The greedy pieces are
deterministic: `[^:]*:` consumes up to the first colon, `\s*` up to the
first non-space, `[\d\.]+` the maximal digit/dot run which must be
followed by `]`. -/
def matchNumAt (s : PyStr) : Option (PyStr × PyStr × PyStr) :=
  match s with
  | [] => none
  | c :: t1 =>
    if c = '[' then
      match keywordAfterBracket t1 with
      | none => none
      | some t2 =>
        match t2.dropWhile (fun x => !(x == ':')) with
        | ':' :: t4 =>
          let t5 := t4.dropWhile isPySpace
          let t6 :=
            if lowPrefix "tbl".data t5 then
              (match t5.drop 3 with
               | '_' :: u => u
               | u => u)
            else t5
          let t7 := t6.dropWhile isPySpace
          let cap := t7.takeWhile isDigitDot
          if cap = [] then none
          else
            match t7.drop cap.length with
            | ']' :: t9 => some (s.take (s.length - t9.length), cap, t9)
            | _ => none
        | _ => none
    else none

/-- One anchored attempt of the category pattern
`\[(?:SHOW_TABLE|SHOW|TABLE)[^:]*:\s*CAT\s*=\s*([^\]]+)\]` (IGNORECASE):
`\s*([^\]]+)]` consumes everything up to the first `]`, the capture being
that text minus the greedy leading whitespace (at least one character). -/
def matchCatAt (s : PyStr) : Option (PyStr × PyStr × PyStr) :=
  match s with
  | [] => none
  | c :: t1 =>
    if c = '[' then
      match keywordAfterBracket t1 with
      | none => none
      | some t2 =>
        match t2.dropWhile (fun x => !(x == ':')) with
        | ':' :: t4 =>
          let t5 := t4.dropWhile isPySpace
          if lowPrefix "cat".data t5 then
            match (t5.drop 3).dropWhile isPySpace with
            | '=' :: t7 =>
              let x := t7.takeWhile (fun y => !(y == ']'))
              if x = [] then none
              else
                match t7.drop x.length with
                | ']' :: t9 =>
                  let nsp := (x.takeWhile isPySpace).length
                  some (s.take (s.length - t9.length),
                    x.drop (min nsp (x.length - 1)), t9)
                | _ => none
            | _ => none
          else none
        | _ => none
    else none

/-- The `replace_cat` callback: resolve `cat:`/`role:` keys, else return
the matched text unchanged (`match.group(0)`). -/
def replaceCat (cmap : List (PyStr × PyStr)) (capture matched : PyStr) :
    PyStr :=
  let cat_name := pyLowerStr (pyStrip capture)
  match alookup cmap ("cat:".data ++ cat_name) with
  | some h => divWrap h
  | none =>
    match alookup cmap ("role:".data ++ cat_name) with
    | some h => divWrap h
    | none => matched

/-- The terminal fallback of `replace_match`: when exactly one table is
stored its value is used, otherwise the matched text is left unchanged. -/
def fallbackSingle (tmap : List (PyStr × PyStr)) (matched : PyStr) : PyStr :=
  match tmap with
  | [(_, v)] => divWrap v
  | _ => matched

/-- The `replace_match` callback: strip `TBL_` (a no-op on the digit/dot
capture) and look the id up; on failure try the part before the first dot;
then the single-table fallback; else leave the matched text unchanged. -/
def replaceNum (tmap : List (PyStr × PyStr)) (capture matched : PyStr) :
    PyStr :=
  let clean_id := pyStrip (replaceAll "TBL_".data [] capture)
  match alookup tmap clean_id with
  | some h => divWrap h
  | none =>
    if capture.contains '.' then
      (match alookup tmap (capture.takeWhile (fun c => !(c == '.'))) with
       | some h => divWrap h
       | none => fallbackSingle tmap matched)
    else fallbackSingle tmap matched

/-- The scan loop of `re.sub`: at each position try the anchored matcher;
on a match emit the replacement and continue after the match (replacements
are not rescanned), otherwise emit the character.  Fuel (initially the
string length) makes the recursion structural. -/
def scanGenF (matchAt : PyStr → Option (PyStr × PyStr × PyStr))
    (repl : PyStr → PyStr → PyStr) : Nat → PyStr → PyStr
  | 0, s => s
  | _ + 1, [] => []
  | fuel + 1, c :: rest =>
    match matchAt (c :: rest) with
    | none => c :: scanGenF matchAt repl fuel rest
    | some (matched, cap, t9) =>
      repl cap matched ++ scanGenF matchAt repl fuel t9

/-- `pattern_cat.sub(replace_cat, ·)`. -/
def scanCat (cmap : List (PyStr × PyStr)) (s : PyStr) : PyStr :=
  scanGenF matchCatAt (replaceCat cmap) s.length s

/-- `pattern.sub(replace_match, ·)`. -/
def scanNum (tmap : List (PyStr × PyStr)) (s : PyStr) : PyStr :=
  scanGenF matchNumAt (replaceNum tmap) s.length s

/-- The reinjection post-processing step of `answer_question` (its section
5): when some table markup is stored and the answer is non-empty, apply
the category substitution pass and then the numeric substitution pass. -/
def postProcessAnswer (tmap cmap : List (PyStr × PyStr)) (ans : PyStr) :
    PyStr :=
  if (tmap ≠ [] ∨ cmap ≠ []) ∧ ans ≠ [] then scanNum tmap (scanCat cmap ans)
  else ans

end Rag

/-- The concrete stored-table map for the C2 counterexample: two tables,
so the single-table fallback does not apply. -/
def c2tmap : List (PyStr × PyStr) :=
  [("1".data, "<b>T1</b>".data), ("2".data, "<b>T2</b>".data)]

/-- C2 counterexample: the generated answer `[SHOW_TABLE:TBL_9]` carries a
marker whose code `9` resolves in neither map; post-processing returns the
answer unchanged, so the unresolved marker remains visible in the final
answer — it is not stripped. -/
theorem C2_counterexample :
    Rag.postProcessAnswer c2tmap [] "[SHOW_TABLE:TBL_9]".data
      = "[SHOW_TABLE:TBL_9]".data
    ∧ Chunking.containsSub "SHOW_TABLE".data
        (Rag.postProcessAnswer c2tmap [] "[SHOW_TABLE:TBL_9]".data) = true := by
  exact ⟨by decide, by decide⟩

-- ===================================================================
-- C2 (amended) : resolved markers substituted, unresolved left verbatim
-- ===================================================================

theorem pyDigit_not_space {c : Char} (h : isPyDigit c = true) :
    isPySpace c = false := by
  simp only [isPyDigit, Bool.or_eq_true, Bool.and_eq_true,
    decide_eq_true_eq] at h
  rw [Bool.eq_false_iff]
  intro hsp
  simp only [isPySpace, Bool.or_eq_true, Bool.and_eq_true,
    decide_eq_true_eq, beq_iff_eq] at hsp
  omega

theorem pyDigit_isDigitDot {c : Char} (h : isPyDigit c = true) :
    isDigitDot c = true := by
  simp [isDigitDot, h]

theorem pyDigit_ne_bracket {c : Char} (h : isPyDigit c = true) : c ≠ '[' := by
  intro hc
  subst hc
  exact absurd h (by decide)

theorem pyDigit_ne_T {c : Char} (h : isPyDigit c = true) : c ≠ 'T' := by
  intro hc
  subst hc
  exact absurd h (by decide)

theorem pyDigit_ne_dot {c : Char} (h : isPyDigit c = true) : c ≠ '.' := by
  intro hc
  subst hc
  exact absurd h (by decide)

theorem takeWhile_append_stop {p : Char → Bool} {a : PyStr} {b : Char}
    {t : PyStr} (ha : ∀ c ∈ a, p c = true) (hb : p b = false) :
    ((a ++ b :: t).takeWhile p) = a := by
  induction a with
  | nil => simp [List.takeWhile_cons, hb]
  | cons c a' ih =>
    simp only [List.cons_append, List.takeWhile_cons,
      ha c (List.mem_cons_self c a'), if_pos]
    rw [ih (fun x hx => ha x (List.mem_cons_of_mem c hx))]

theorem matchNumAt_ne_bracket {c : Char} {rest : PyStr} (hc : c ≠ '[') :
    Rag.matchNumAt (c :: rest) = none := by
  simp [Rag.matchNumAt, hc]

theorem matchCatAt_ne_bracket {c : Char} {rest : PyStr} (hc : c ≠ '[') :
    Rag.matchCatAt (c :: rest) = none := by
  simp [Rag.matchCatAt, hc]

theorem scanGen_no_bracket (matchAt : PyStr → Option (PyStr × PyStr × PyStr))
    (repl : PyStr → PyStr → PyStr)
    (hhead : ∀ c rest, c ≠ '[' → matchAt (c :: rest) = none) :
    ∀ (s : PyStr) (fuel : Nat), (∀ c ∈ s, c ≠ '[') → s.length ≤ fuel →
    Rag.scanGenF matchAt repl fuel s = s := by
  intro s
  induction s with
  | nil =>
    intro fuel _ _
    cases fuel <;> rfl
  | cons c rest ih =>
    intro fuel hs hf
    cases fuel with
    | zero => simp at hf
    | succ f =>
      rw [Rag.scanGenF, hhead c rest (hs c (List.mem_cons_self c rest))]
      rw [ih f (fun x hx => hs x (List.mem_cons_of_mem c hx)) (by simp at hf; omega)]

theorem scanGen_copy (matchAt : PyStr → Option (PyStr × PyStr × PyStr))
    (repl : PyStr → PyStr → PyStr)
    (hhead : ∀ c rest, c ≠ '[' → matchAt (c :: rest) = none) :
    ∀ (pre t : PyStr) (rest : Nat), (∀ c ∈ pre, c ≠ '[') →
    Rag.scanGenF matchAt repl (pre.length + rest) (pre ++ t)
      = pre ++ Rag.scanGenF matchAt repl rest t := by
  intro pre
  induction pre with
  | nil => intro t rest _; simp
  | cons c pre' ih =>
    intro t rest hpre
    have hlen : (c :: pre').length + rest = (pre'.length + rest) + 1 := by
      simp [List.length_cons]; omega
    rw [hlen, List.cons_append, Rag.scanGenF,
      hhead c (pre' ++ t) (hpre c (List.mem_cons_self c pre'))]
    rw [ih t rest (fun x hx => hpre x (List.mem_cons_of_mem c hx))]
    rfl

theorem take_sub_right (l₁ l₂ : PyStr) :
    (l₁ ++ l₂).take ((l₁ ++ l₂).length - l₂.length) = l₁ := by
  rw [List.length_append, Nat.add_sub_cancel, List.take_left]

theorem matchNumAt_marker (code post : PyStr) (hne : code ≠ [])
    (hdig : ∀ c ∈ code, isPyDigit c = true) :
    Rag.matchNumAt ("[SHOW_TABLE:TBL_".data ++ code ++ ']' :: post)
      = some ("[SHOW_TABLE:TBL_".data ++ code ++ [']'], code, post) := by
  obtain ⟨c0, code', rfl⟩ : ∃ c0 code', code = c0 :: code' := by
    cases code with
    | nil => exact absurd rfl hne
    | cons a b => exact ⟨a, b, rfl⟩
  have hc0d : isPyDigit c0 = true := hdig c0 (List.mem_cons_self c0 code')
  have hcap2 : List.takeWhile isDigitDot (c0 :: (code' ++ ']' :: post))
      = c0 :: code' := by
    have h := @takeWhile_append_stop isDigitDot (c0 :: code') ']' post
      (fun c hc => pyDigit_isDigitDot (hdig c hc)) (by decide)
    simpa using h
  have hdrop2 : List.drop (c0 :: code').length (c0 :: (code' ++ ']' :: post))
      = ']' :: post := by
    have h := List.drop_left (c0 :: code') (']' :: post)
    simp only [List.cons_append] at h
    exact h
  simp only [Rag.matchNumAt, Rag.keywordAfterBracket, List.cons_append,
    List.nil_append]
  simp +decide only [lowPrefix, pyLower, List.dropWhile_cons,
    pyDigit_not_space hc0d, hcap2, hdrop2, List.drop_succ_cons,
    List.drop_zero, Bool.not_eq_true, if_true, if_false, List.cons_ne_nil]
  rw [show ('[' :: 'S' :: 'H' :: 'O' :: 'W' :: '_' :: 'T' :: 'A' :: 'B'
        :: 'L' :: 'E' :: ':' :: 'T' :: 'B' :: 'L' :: '_' :: c0
        :: (code' ++ ']' :: post))
      = ('[' :: 'S' :: 'H' :: 'O' :: 'W' :: '_' :: 'T' :: 'A' :: 'B'
        :: 'L' :: 'E' :: ':' :: 'T' :: 'B' :: 'L' :: '_' :: c0
        :: (code' ++ [']'])) ++ post from by simp]
  rw [take_sub_right]

theorem matchCatAt_marker (code post : PyStr) :
    Rag.matchCatAt ("[SHOW_TABLE:TBL_".data ++ code ++ ']' :: post)
      = none := by
  simp only [Rag.matchCatAt, Rag.keywordAfterBracket, List.cons_append,
    List.nil_append]
  simp +decide only [lowPrefix, pyLower, List.dropWhile_cons,
    List.drop_succ_cons, List.drop_zero, Bool.not_eq_true, if_true, if_false]

theorem replaceAllF_no_T {s : PyStr} (h : ∀ c ∈ s, c ≠ 'T') :
    ∀ fuel, s.length ≤ fuel → Rag.replaceAllF "TBL_".data [] fuel s = s := by
  induction s with
  | nil => intro fuel _; cases fuel <;> rfl
  | cons c rest ih =>
    intro fuel hf
    cases fuel with
    | zero => simp at hf
    | succ f =>
      rw [Rag.replaceAllF]
      have hpf : ("TBL_".data.isPrefixOf (c :: rest)) = false := by
        have hlit : "TBL_".data = 'T' :: 'B' :: 'L' :: '_' :: [] := rfl
        rw [hlit]
        simp only [List.isPrefixOf, Bool.and_eq_false_iff]
        left
        simp [Ne.symm (h c (List.mem_cons_self c rest))]
      rw [hpf]
      simp only [Bool.false_eq_true, if_false]
      rw [ih (fun x hx => h x (List.mem_cons_of_mem c hx)) f
        (by simp at hf; omega)]

theorem digits_no_dot {code : PyStr}
    (hdig : ∀ c ∈ code, isPyDigit c = true) :
    code.contains '.' = false := by
  induction code with
  | nil => rfl
  | cons c rest ih =>
    have hc : ('.' == c) = false := by
      simp [Ne.symm (pyDigit_ne_dot (hdig c (List.mem_cons_self c rest)))]
    simp only [List.contains_cons, hc, Bool.false_or]
    exact ih (fun x hx => hdig x (List.mem_cons_of_mem c hx))

theorem fallbackSingle_ne_one {tmap : List (PyStr × PyStr)} {matched : PyStr}
    (h : tmap.length ≠ 1) : Rag.fallbackSingle tmap matched = matched := by
  rcases tmap with _ | ⟨x, _ | ⟨y, r⟩⟩
  · rfl
  · simp at h
  · rfl

theorem replaceNum_clean {code : PyStr}
    (hdig : ∀ c ∈ code, isPyDigit c = true) :
    pyStrip (Rag.replaceAll "TBL_".data [] code) = code := by
  unfold Rag.replaceAll
  rw [replaceAllF_no_T (fun c hc => pyDigit_ne_T (hdig c hc)) code.length
    (Nat.le_refl _)]
  exact pyStrip_eq_self_of_no_space
    (fun c hc => pyDigit_not_space (hdig c hc))

theorem replaceNum_resolved {tmap : List (PyStr × PyStr)}
    {code matched html : PyStr}
    (hdig : ∀ c ∈ code, isPyDigit c = true)
    (hl : Rag.alookup tmap code = some html) :
    Rag.replaceNum tmap code matched = Rag.divWrap html := by
  simp only [Rag.replaceNum, replaceNum_clean hdig, hl]

theorem replaceNum_unresolved {tmap : List (PyStr × PyStr)}
    {code matched : PyStr}
    (hdig : ∀ c ∈ code, isPyDigit c = true)
    (hl : Rag.alookup tmap code = none) (hlen : tmap.length ≠ 1) :
    Rag.replaceNum tmap code matched = matched := by
  simp only [Rag.replaceNum, replaceNum_clean hdig, hl, digits_no_dot hdig,
    Bool.false_eq_true, if_false]
  exact fallbackSingle_ne_one hlen

theorem scanGenF_cons_none {matchAt : PyStr → Option (PyStr × PyStr × PyStr)}
    {repl : PyStr → PyStr → PyStr} {fuel : Nat} {c : Char} {rest : PyStr}
    (h : matchAt (c :: rest) = none) :
    Rag.scanGenF matchAt repl (fuel + 1) (c :: rest)
      = c :: Rag.scanGenF matchAt repl fuel rest := by
  rw [Rag.scanGenF, h]

theorem scanGenF_cons_some {matchAt : PyStr → Option (PyStr × PyStr × PyStr)}
    {repl : PyStr → PyStr → PyStr} {fuel : Nat} {c : Char}
    {rest m cap t9 : PyStr} (h : matchAt (c :: rest) = some (m, cap, t9)) :
    Rag.scanGenF matchAt repl (fuel + 1) (c :: rest)
      = repl cap m ++ Rag.scanGenF matchAt repl fuel t9 := by
  rw [Rag.scanGenF, h]

theorem postProcess_marker (tmap cmap : List (PyStr × PyStr))
    (pre post code : PyStr)
    (hpre : ∀ c ∈ pre, c ≠ '[') (hpost : ∀ c ∈ post, c ≠ '[')
    (hcode : code ≠ []) (hdig : ∀ c ∈ code, isPyDigit c = true)
    (htm : tmap ≠ []) :
    Rag.postProcessAnswer tmap cmap
        (pre ++ "[SHOW_TABLE:TBL_".data ++ code ++ ']' :: post)
      = pre ++ Rag.replaceNum tmap code
          ("[SHOW_TABLE:TBL_".data ++ code ++ [']']) ++ post := by
  have htail_nb : ∀ c ∈ "SHOW_TABLE:TBL_".data, c ≠ '[' := by decide
  have hnb : ∀ c ∈ ("SHOW_TABLE:TBL_".data ++ code ++ ']' :: post),
      c ≠ '[' := by
    intro c hc
    rcases List.mem_append.mp hc with h1 | h2
    · rcases List.mem_append.mp h1 with ha | hb
      · exact htail_nb c ha
      · exact pyDigit_ne_bracket (hdig c hb)
    · rcases List.mem_cons.mp h2 with rfl | hp
      · decide
      · exact hpost c hp
  have hM : "[SHOW_TABLE:TBL_".data ++ code ++ ']' :: post
      = '[' :: ("SHOW_TABLE:TBL_".data ++ code ++ ']' :: post) := rfl
  have hassoc : pre ++ "[SHOW_TABLE:TBL_".data ++ code ++ ']' :: post
      = pre ++ ("[SHOW_TABLE:TBL_".data ++ code ++ ']' :: post) := by
    simp [List.append_assoc]
  have hscanCatM : Rag.scanGenF Rag.matchCatAt (Rag.replaceCat cmap)
      ("[SHOW_TABLE:TBL_".data ++ code ++ ']' :: post).length
      ("[SHOW_TABLE:TBL_".data ++ code ++ ']' :: post)
      = "[SHOW_TABLE:TBL_".data ++ code ++ ']' :: post := by
    have hmatch : Rag.matchCatAt
        ('[' :: ("SHOW_TABLE:TBL_".data ++ code ++ ']' :: post)) = none := by
      rw [← hM]; exact matchCatAt_marker code post
    rw [hM]
    rw [show ('[' :: ("SHOW_TABLE:TBL_".data ++ code ++ ']' :: post)).length
        = ("SHOW_TABLE:TBL_".data ++ code ++ ']' :: post).length + 1
      from by simp]
    rw [scanGenF_cons_none hmatch]
    rw [scanGen_no_bracket Rag.matchCatAt (Rag.replaceCat cmap)
      (fun c r hc => matchCatAt_ne_bracket hc) _ _ hnb (le_refl _)]
  have hscanNumM : Rag.scanGenF Rag.matchNumAt (Rag.replaceNum tmap)
      ("[SHOW_TABLE:TBL_".data ++ code ++ ']' :: post).length
      ("[SHOW_TABLE:TBL_".data ++ code ++ ']' :: post)
      = Rag.replaceNum tmap code
          ("[SHOW_TABLE:TBL_".data ++ code ++ [']']) ++ post := by
    have hmatch : Rag.matchNumAt
        ('[' :: ("SHOW_TABLE:TBL_".data ++ code ++ ']' :: post))
        = some ("[SHOW_TABLE:TBL_".data ++ code ++ [']'], code, post) := by
      rw [← hM]; exact matchNumAt_marker code post hcode hdig
    have hlepost : post.length
        ≤ ("SHOW_TABLE:TBL_".data ++ code ++ ']' :: post).length := by
      simp [List.length_append]
      omega
    rw [hM]
    rw [show ('[' :: ("SHOW_TABLE:TBL_".data ++ code ++ ']' :: post)).length
        = ("SHOW_TABLE:TBL_".data ++ code ++ ']' :: post).length + 1
      from by simp]
    rw [scanGenF_cons_some hmatch]
    rw [scanGen_no_bracket Rag.matchNumAt (Rag.replaceNum tmap)
      (fun c r hc => matchNumAt_ne_bracket hc) post _ hpost hlepost]
  have hcat : Rag.scanCat cmap
      (pre ++ ("[SHOW_TABLE:TBL_".data ++ code ++ ']' :: post))
      = pre ++ ("[SHOW_TABLE:TBL_".data ++ code ++ ']' :: post) := by
    simp only [Rag.scanCat]
    rw [show (pre ++ ("[SHOW_TABLE:TBL_".data ++ code ++ ']' :: post)).length
        = pre.length + ("[SHOW_TABLE:TBL_".data ++ code ++ ']' :: post).length
      from by simp]
    rw [scanGen_copy Rag.matchCatAt (Rag.replaceCat cmap)
      (fun c r hc => matchCatAt_ne_bracket hc) pre _ _ hpre]
    rw [hscanCatM]
  have hnum : Rag.scanNum tmap
      (pre ++ ("[SHOW_TABLE:TBL_".data ++ code ++ ']' :: post))
      = pre ++ Rag.replaceNum tmap code
          ("[SHOW_TABLE:TBL_".data ++ code ++ [']']) ++ post := by
    simp only [Rag.scanNum]
    rw [show (pre ++ ("[SHOW_TABLE:TBL_".data ++ code ++ ']' :: post)).length
        = pre.length + ("[SHOW_TABLE:TBL_".data ++ code ++ ']' :: post).length
      from by simp]
    rw [scanGen_copy Rag.matchNumAt (Rag.replaceNum tmap)
      (fun c r hc => matchNumAt_ne_bracket hc) pre _ _ hpre]
    rw [hscanNumM]
    simp [List.append_assoc]
  have hne_nil : pre ++ ("[SHOW_TABLE:TBL_".data ++ code ++ ']' :: post)
      ≠ [] := by simp
  rw [hassoc]
  simp only [Rag.postProcessAnswer]
  rw [if_pos (And.intro (Or.inl htm) hne_nil), hcat, hnum]

theorem fallbackSingle_single (k v matched : PyStr) :
    Rag.fallbackSingle [(k, v)] matched = Rag.divWrap v := rfl

theorem replaceNum_single {k v code matched : PyStr}
    (hdig : ∀ c ∈ code, isPyDigit c = true)
    (hl : Rag.alookup [(k, v)] code = none) :
    Rag.replaceNum [(k, v)] code matched = Rag.divWrap v := by
  simp only [Rag.replaceNum, replaceNum_clean hdig, hl, digits_no_dot hdig,
    Bool.false_eq_true, if_false]
  exact fallbackSingle_single k v matched

theorem replaceCat_resolved {cmap : List (PyStr × PyStr)}
    {name matched html : PyStr}
    (hl : Rag.alookup cmap ("cat:".data ++ pyLowerStr (pyStrip name))
      = some html) :
    Rag.replaceCat cmap name matched = Rag.divWrap html := by
  simp only [Rag.replaceCat, hl]

theorem matchCatAt_catMarker (name post : PyStr) (hne : name ≠ [])
    (hnc : ∀ c ∈ name, c ≠ ']' ∧ isPySpace c = false) :
    Rag.matchCatAt ("[SHOW_TABLE:CAT=".data ++ name ++ ']' :: post)
      = some ("[SHOW_TABLE:CAT=".data ++ name ++ [']'], name, post) := by
  obtain ⟨c0, name', rfl⟩ : ∃ c0 n', name = c0 :: n' := by
    cases name with
    | nil => exact absurd rfl hne
    | cons a b => exact ⟨a, b, rfl⟩
  have hc0s : isPySpace c0 = false :=
    (hnc c0 (List.mem_cons_self c0 name')).2
  have hcap2 : List.takeWhile (fun y => !(y == ']'))
      (c0 :: (name' ++ ']' :: post)) = c0 :: name' := by
    have h := @takeWhile_append_stop (fun y => !(y == ']')) (c0 :: name') ']'
      post (fun c hc => by simp [(hnc c hc).1]) (by decide)
    simpa using h
  have hdrop2 : List.drop (c0 :: name').length (c0 :: (name' ++ ']' :: post))
      = ']' :: post := by
    have h := List.drop_left (c0 :: name') (']' :: post)
    simp only [List.cons_append] at h
    exact h
  have hnsp : List.takeWhile isPySpace (c0 :: name') = [] := by
    simp [List.takeWhile_cons, hc0s]
  simp only [Rag.matchCatAt, Rag.keywordAfterBracket, List.cons_append,
    List.nil_append]
  simp +decide only [lowPrefix, pyLower, List.dropWhile_cons, hcap2, hdrop2,
    hnsp, List.drop_succ_cons, List.drop_zero, Bool.not_eq_true, if_true,
    if_false, List.cons_ne_nil, List.length_nil, Nat.zero_min]
  rw [show ('[' :: 'S' :: 'H' :: 'O' :: 'W' :: '_' :: 'T' :: 'A' :: 'B'
        :: 'L' :: 'E' :: ':' :: 'C' :: 'A' :: 'T' :: '=' :: c0
        :: (name' ++ ']' :: post))
      = ('[' :: 'S' :: 'H' :: 'O' :: 'W' :: '_' :: 'T' :: 'A' :: 'B'
        :: 'L' :: 'E' :: ':' :: 'C' :: 'A' :: 'T' :: '=' :: c0
        :: (name' ++ [']'])) ++ post from by simp]
  rw [take_sub_right]

theorem divWrap_no_bracket {html : PyStr} (h : ∀ c ∈ html, c ≠ '[') :
    ∀ c ∈ Rag.divWrap html, c ≠ '[' := by
  have hw1 : ∀ x ∈ ("\n<div class=\x27my-4 overflow-x-auto border rounded-lg shadow-sm bg-white p-2\x27>").data,
      x ≠ '[' := by decide
  have hw2 : ∀ x ∈ "</div>\n".data, x ≠ '[' := by decide
  intro c hc
  unfold Rag.divWrap at hc
  rcases List.mem_append.mp hc with h1 | h2
  · rcases List.mem_append.mp h1 with ha | hb
    · exact hw1 c ha
    · exact h c hb
  · exact hw2 c h2

theorem postProcess_catMarker (tmap cmap : List (PyStr × PyStr))
    (pre post name html : PyStr)
    (hpre : ∀ c ∈ pre, c ≠ '[') (hpost : ∀ c ∈ post, c ≠ '[')
    (hname : name ≠ [])
    (hnc : ∀ c ∈ name, c ≠ ']' ∧ c ≠ '[' ∧ isPySpace c = false)
    (hhtml : ∀ c ∈ html, c ≠ '[') (htm : tmap ≠ [])
    (hl : Rag.alookup cmap ("cat:".data ++ pyLowerStr (pyStrip name))
      = some html) :
    Rag.postProcessAnswer tmap cmap
        (pre ++ "[SHOW_TABLE:CAT=".data ++ name ++ ']' :: post)
      = pre ++ Rag.divWrap html ++ post := by
  have hM : "[SHOW_TABLE:CAT=".data ++ name ++ ']' :: post
      = '[' :: ("SHOW_TABLE:CAT=".data ++ name ++ ']' :: post) := rfl
  have hassoc : pre ++ "[SHOW_TABLE:CAT=".data ++ name ++ ']' :: post
      = pre ++ ("[SHOW_TABLE:CAT=".data ++ name ++ ']' :: post) := by
    simp [List.append_assoc]
  have hlepost : post.length
      ≤ ("SHOW_TABLE:CAT=".data ++ name ++ ']' :: post).length := by
    simp [List.length_append]
    omega
  have hscanCatM : Rag.scanGenF Rag.matchCatAt (Rag.replaceCat cmap)
      ("[SHOW_TABLE:CAT=".data ++ name ++ ']' :: post).length
      ("[SHOW_TABLE:CAT=".data ++ name ++ ']' :: post)
      = Rag.divWrap html ++ post := by
    have hmatch : Rag.matchCatAt
        ('[' :: ("SHOW_TABLE:CAT=".data ++ name ++ ']' :: post))
        = some ("[SHOW_TABLE:CAT=".data ++ name ++ [']'], name, post) := by
      rw [← hM]
      exact matchCatAt_catMarker name post hname
        (fun c hc => ⟨(hnc c hc).1, (hnc c hc).2.2⟩)
    rw [hM]
    rw [show ('[' :: ("SHOW_TABLE:CAT=".data ++ name ++ ']' :: post)).length
        = ("SHOW_TABLE:CAT=".data ++ name ++ ']' :: post).length + 1
      from by simp]
    rw [scanGenF_cons_some hmatch]
    rw [scanGen_no_bracket Rag.matchCatAt (Rag.replaceCat cmap)
      (fun c r hc => matchCatAt_ne_bracket hc) post _ hpost hlepost]
    rw [replaceCat_resolved hl]
  have hcat : Rag.scanCat cmap
      (pre ++ ("[SHOW_TABLE:CAT=".data ++ name ++ ']' :: post))
      = pre ++ (Rag.divWrap html ++ post) := by
    simp only [Rag.scanCat]
    rw [show (pre ++ ("[SHOW_TABLE:CAT=".data ++ name ++ ']' :: post)).length
        = pre.length + ("[SHOW_TABLE:CAT=".data ++ name ++ ']' :: post).length
      from by simp]
    rw [scanGen_copy Rag.matchCatAt (Rag.replaceCat cmap)
      (fun c r hc => matchCatAt_ne_bracket hc) pre _ _ hpre]
    rw [hscanCatM]
  have hall : ∀ c ∈ pre ++ (Rag.divWrap html ++ post), c ≠ '[' := by
    intro c hc
    rcases List.mem_append.mp hc with h1 | h2
    · exact hpre c h1
    · rcases List.mem_append.mp h2 with ha | hb
      · exact divWrap_no_bracket hhtml c ha
      · exact hpost c hb
  have hnum : Rag.scanNum tmap (pre ++ (Rag.divWrap html ++ post))
      = pre ++ (Rag.divWrap html ++ post) := by
    simp only [Rag.scanNum]
    rw [scanGen_no_bracket Rag.matchNumAt (Rag.replaceNum tmap)
      (fun c r hc => matchNumAt_ne_bracket hc) _ _ hall (le_refl _)]
  have hne_nil : pre ++ ("[SHOW_TABLE:CAT=".data ++ name ++ ']' :: post)
      ≠ [] := by simp
  rw [hassoc]
  simp only [Rag.postProcessAnswer]
  rw [if_pos (And.intro (Or.inl htm) hne_nil), hcat, hnum]
  simp [List.append_assoc]

/-- C2: the reinjection post-processing of `answer_question` substitutes a
marker whose code or category resolves in the stored maps with the stored
rich representation (the HTML in its scroll-container div): a
`[SHOW_TABLE:TBL_<id>]` marker whose id resolves in the table map, a
numeric marker that does not resolve while exactly one table is stored
(the single-table fallback), and a `[SHOW_TABLE:CAT=<name>]` marker whose
category key resolves in the category/role map.  But a numeric marker
that resolves nowhere (with the single-table fallback inapplicable) is
left verbatim in the returned answer — unresolved markers are returned as
`match.group(0)` and stay visible, they are not stripped. -/
theorem C2_theorem (tmap cmap : List (PyStr × PyStr)) (pre post : PyStr)
    (hpre : ∀ c ∈ pre, c ≠ '[') (hpost : ∀ c ∈ post, c ≠ '[')
    (htm : tmap ≠ []) :
    (∀ code html, code ≠ [] → (∀ c ∈ code, isPyDigit c = true) →
        Rag.alookup tmap code = some html →
        Rag.postProcessAnswer tmap cmap
            (pre ++ "[SHOW_TABLE:TBL_".data ++ code ++ ']' :: post)
          = pre ++ Rag.divWrap html ++ post)
    ∧ (∀ code k v, code ≠ [] → (∀ c ∈ code, isPyDigit c = true) →
        tmap = [(k, v)] → Rag.alookup tmap code = none →
        Rag.postProcessAnswer tmap cmap
            (pre ++ "[SHOW_TABLE:TBL_".data ++ code ++ ']' :: post)
          = pre ++ Rag.divWrap v ++ post)
    ∧ (∀ code, code ≠ [] → (∀ c ∈ code, isPyDigit c = true) →
        Rag.alookup tmap code = none → tmap.length ≠ 1 →
        Rag.postProcessAnswer tmap cmap
            (pre ++ "[SHOW_TABLE:TBL_".data ++ code ++ ']' :: post)
          = pre ++ "[SHOW_TABLE:TBL_".data ++ code ++ ']' :: post)
    ∧ (∀ name html, name ≠ [] →
        (∀ c ∈ name, c ≠ ']' ∧ c ≠ '[' ∧ isPySpace c = false) →
        (∀ c ∈ html, c ≠ '[') →
        Rag.alookup cmap ("cat:".data ++ pyLowerStr (pyStrip name))
          = some html →
        Rag.postProcessAnswer tmap cmap
            (pre ++ "[SHOW_TABLE:CAT=".data ++ name ++ ']' :: post)
          = pre ++ Rag.divWrap html ++ post) := by
  refine ⟨?_, ?_, ?_, ?_⟩
  · intro code html hcode hdig hl
    rw [postProcess_marker tmap cmap pre post code hpre hpost hcode hdig htm,
      replaceNum_resolved hdig hl]
  · intro code k v hcode hdig htv hl
    subst htv
    rw [postProcess_marker [(k, v)] cmap pre post code hpre hpost hcode hdig
        (List.cons_ne_nil _ _),
      replaceNum_single hdig hl]
  · intro code hcode hdig hl hlen
    rw [postProcess_marker tmap cmap pre post code hpre hpost hcode hdig htm,
      replaceNum_unresolved hdig hl hlen]
    simp [List.append_assoc]
  · intro name html hname hnc hhtml hl
    exact postProcess_catMarker tmap cmap pre post name html hpre hpost
      hname hnc hhtml htm hl

/-- The stored category map for the C2 witness. -/
def c2cmap : List (PyStr × PyStr) :=
  [("cat:fee".data, "<b>C</b>".data)]

/-- C2 witness: on the concrete two-table map with one stored category,
the numeric marker of `A [SHOW_TABLE:TBL_1] B` (id `1` resolves) and the
category marker of `A [SHOW_TABLE:CAT=FEE] B` (category `fee` resolves)
are both replaced by the stored HTML in its div wrapper. -/
theorem C2_witness :
    (Rag.postProcessAnswer c2tmap c2cmap
        ("A ".data ++ "[SHOW_TABLE:TBL_".data ++ "1".data ++ ']' :: " B".data)
      = "A ".data ++ Rag.divWrap "<b>T1</b>".data ++ " B".data)
    ∧ (Rag.postProcessAnswer c2tmap c2cmap
        ("A ".data ++ "[SHOW_TABLE:CAT=".data ++ "FEE".data
          ++ ']' :: " B".data)
      = "A ".data ++ Rag.divWrap "<b>C</b>".data ++ " B".data) :=
  ⟨(C2_theorem c2tmap c2cmap "A ".data " B".data (by decide) (by decide)
      (by decide)).1 "1".data "<b>T1</b>".data (by decide) (by decide) rfl,
   (C2_theorem c2tmap c2cmap "A ".data " B".data (by decide) (by decide)
      (by decide)).2.2.2 "FEE".data "<b>C</b>".data (by decide) (by decide)
     (by decide) rfl⟩

-- ===================================================================
-- rag.py : answer_question (main RAG pipeline) for C7/C8
-- ===================================================================

namespace Rag

/-- A `sources` entry of the answer payload: the four metadata fields
`answer_question` copies out of each document. -/
structure SourceEntry where
  doc_id : Option PyStr := none
  page : Option Nat := none
  source : Option PyStr := none
  chunk_id : Option PyStr := none
deriving DecidableEq, Repr

/-- The observable effects of one `answer_question` run: a vector-index
search, a primary-LLM invocation, a backup-LLM invocation. -/
inductive RagEvent
  | search
  | llmA
  | llmB
deriving DecidableEq, Repr

/-- The dict `answer_question` returns. -/
structure RagAnswer where
  answer : PyStr
  sources : List SourceEntry
  intent : Option PyStr
  mode : PyStr
deriving DecidableEq, Repr

/-- The external world `answer_question` runs against: the cached Chroma
client and the one a forced reload would build, the cross-encoder (`none`
models an unavailable reranker; the score function folds the monotone
sigmoid `normalize_score` into the external model output), the primary and
backup LLMs (`none` models `_get_llm_instance`/`_get_google_llm` returning
`None`; an inner `none` models the invocation raising), and the Q&A
matcher (which reads per-document files and the cross-encoder, both
external here). -/
structure RagEnv where
  db : VectorStore.Backend
  reloadedDb : VectorStore.Backend
  reranker : Option (PyStr → PyStr → ℚ) := none
  planA : Option (PyStr → PyStr → Option PyStr) := none
  planB : Option (PyStr → PyStr → Option PyStr) := none
  qnaMatch : PyStr → List PyDoc → Option (PyStr × List SourceEntry) :=
    fun _ _ => none

/-- The keyword list of `_detect_general_intent`. -/
def GENERAL_KEYWORDS : List PyStr :=
  ["สวัสดี", "hello", "hi", "วันนี้วันอะไร", "อากาศ", "who are you",
   "คุณคือใคร", "สบายดีไหม"].map String.data

/-- `_detect_general_intent` from `rag.py`. -/
def detect_general_intent (query : PyStr) : Bool :=
  let q := pyStrip (pyLowerStr query)
  GENERAL_KEYWORDS.contains q ||
    (Chunking.containsSub "วันนี้".data q &&
     Chunking.containsSub "วันอะไร".data q)

/-- The table keywords of `answer_question`'s deterministic auto-mode
selection. -/
def MODE_TABLE_KEYWORDS : List PyStr :=
  ["ตาราง", "table", "ยอด", "สถิติ", "list", "รายการ", "สรุป"].map
    String.data

/-- Step 2 of `answer_question`: in `auto` mode a table keyword in the
lowered query selects `table`, otherwise `text`; an explicit mode is kept. -/
def modeSelect (mode query : PyStr) : PyStr :=
  if mode = "auto".data then
    (if MODE_TABLE_KEYWORDS.any
        (fun x => Chunking.containsSub x (pyLowerStr query)) then
      "table".data
    else "text".data)
  else mode

/-- `sanitized_doc_ids`: `[sanitize_doc_id(d) for d in doc_ids if d]`;
the empty list models both `None` and a falsy list, as every consumer only
tests truthiness. -/
def sdidsOf (doc_ids : List PyStr) : List PyStr :=
  (doc_ids.filter (fun d => d ≠ [])).map sanitize_doc_id

/-- The keyword-boost score of `_rerank_documents`: one point per query
token occurring in the lowered content (tokens counted with multiplicity),
plus three when the whole lowered query occurs. -/
def qtermScore (qLower contentLower : PyStr) (terms : List PyStr) : ℚ :=
  let base := terms.foldl
    (fun acc t => if Chunking.containsSub t contentLower then acc + 1
      else acc) 0
  if Chunking.containsSub qLower contentLower then base + 3 else base

/-- Step 1 of `_rerank_documents` on one document: default a missing
`ai_score` to `0.0` and store the keyword-boost score. -/
def boostDoc (qLower : PyStr) (terms : List PyStr) (d : PyDoc) : PyDoc :=
  { d with ai_score := some (d.ai_score.getD 0),
           keyword_score :=
             some (qtermScore qLower (pyLowerStr d.page_content) terms) }

/-- Fuel-indexed `re.sub(r'\s+', ' ', ·)`: collapse every whitespace run
to a single space (fuel = length makes the recursion structural). -/
def collapseWSF : Nat → PyStr → PyStr
  | 0, s => s
  | _ + 1, [] => []
  | fuel + 1, c :: rest =>
    if isPySpace c then ' ' :: collapseWSF fuel (rest.dropWhile isPySpace)
    else c :: collapseWSF fuel rest

/-- `_clean_text_for_rerank`: collapse whitespace, strip, keep 1000
characters. -/
def cleanTextForRerank (s : PyStr) : PyStr :=
  (pyStrip (collapseWSF s.length s)).take 1000

/-- Stable descending insertion for `list.sort(key=..., reverse=True)`:
an element moves below an earlier one only when its key is strictly
smaller, so equal keys keep their original order. -/
def insertDescBy (key : PyDoc → ℚ) (x : PyDoc) : List PyDoc → List PyDoc
  | [] => [x]
  | y :: ys => if key x < key y then y :: insertDescBy key x ys
    else x :: y :: ys

/-- Stable descending sort by a rational key. -/
def sortDescBy (key : PyDoc → ℚ) : List PyDoc → List PyDoc
  | [] => []
  | x :: xs => insertDescBy key x (sortDescBy key xs)

/-- Path 3 of `_rerank_documents` (no usable cross-encoder): stable sort
by the keyword score, give keyword-matched documents the dummy confidence
`0.3` when their `ai_score` is still `0.0`, keep `top_k`. -/
def rerankPath3 (scored : List PyDoc) (top_k : Nat) : List PyDoc :=
  ((sortDescBy (fun d => d.keyword_score.getD 0) scored).map
    (fun d => if d.ai_score.getD 0 = 0 then { d with ai_score := some (3/10) }
      else d)).take top_k

/-- `_rerank_documents` from `rag.py`: keyword boosting, then cross-encoder
re-scoring of the documents with non-empty cleaned content and a stable
descending sort by `ai_score`; without a reranker (or when every cleaned
content is empty) fall back to the keyword-score sort (exceptions of the
external model are outside this model). -/
def rerank (reranker : Option (PyStr → PyStr → ℚ)) (query : PyStr)
    (docs : List PyDoc) (top_k : Nat) : List PyDoc :=
  if docs = [] then []
  else
    let qLower := pyLowerStr query
    let terms := pySplit qLower
    let scored := docs.map (boostDoc qLower terms)
    match reranker with
    | some predict =>
      if scored.all (fun d => cleanTextForRerank d.page_content = []) then
        rerankPath3 scored top_k
      else
        (sortDescBy (fun d => d.ai_score.getD 0)
          (scored.map (fun d =>
            let cl := cleanTextForRerank d.page_content
            if cl = [] then d
            else { d with ai_score := some (predict query cl) }))).take top_k
    | none => rerankPath3 scored top_k

end Rag

namespace Rag

/-- `_sanitize_html_content` from `rag.py` (the copy without the final
strip): empty stays empty; otherwise remove script elements, neutralize
inline event handlers and `javascript:` URIs. -/
def sanitize_html_content (s : PyStr) : PyStr :=
  if s = [] then [] else scanJs (scanEvent (scanScript s))

/-- The `page` metadata rendered as text, default `"?"`. -/
def pageStrOf (d : PyDoc) : PyStr :=
  match d.page with
  | some n => Chunking.natStr n
  | none => "?".data

/-- The per-chunk context header `[SOURCE i] ID: ... | Page: ...`. -/
def chunkHeader (i : Nat) (d : PyDoc) : PyStr :=
  "[SOURCE ".data ++ Chunking.natStr i ++ "] ID: ".data
    ++ (d.doc_id.getD "unknown".data) ++ " | Page: ".data ++ pageStrOf d

/-- The accumulator of `answer_question`'s context-preparation loop:
`table_map`, `table_cat_map`, `found_table_ids`, `table_counter` and the
context parts, in insertion order. -/
structure CtxState where
  tmap : List (PyStr × PyStr) := []
  cmap : List (PyStr × PyStr) := []
  found : List PyStr := []
  counter : Nat := 0
  parts : List PyStr := []

/-- The rich representation stored for a table chunk: sanitized HTML, or
the `<pre>`-wrapped markdown fallback when sanitization yields nothing. -/
def tableSafeHtml (d : PyDoc) : PyStr :=
  let safe := sanitize_html_content (d.html_content.getD [])
  if safe = [] then
    "<pre class=\x27text-xs overflow-auto p-2 bg-gray-100\x27>".data
      ++ d.markdown_content.getD "No content".data ++ "</pre>".data
  else safe

/-- One iteration of the context-preparation loop (`i` is the 1-based
enumeration index). -/
def ctxStep (i : Nat) (d : PyDoc) (st : CtxState) : CtxState :=
  let source := pyStrip (pyLowerStr (d.source.getD "text".data))
  let content := d.page_content.filter (fun c => !(c == '\x00'))
  let header := chunkHeader i d
  if source = "table".data then
    let counter9 := st.counter + 1
    let ref := Chunking.natStr counter9
    let safe := tableSafeHtml d
    let category := pyLowerStr (pyStrip (d.category.getD []))
    let role := pyLowerStr (pyStrip (d.role.getD []))
    let cmap1 :=
      if category ≠ [] ∧ alookup st.cmap ("cat:".data ++ category) = none then
        st.cmap ++ [("cat:".data ++ category, safe)]
      else st.cmap
    let cmap2 :=
      if role ≠ [] ∧ alookup cmap1 ("role:".data ++ role) = none then
        cmap1 ++ [("role:".data ++ role, safe)]
      else cmap1
    let header9 := header ++ " | **TYPE: TABLE (Code: [SHOW_TABLE:TBL_".data
      ++ ref ++ "])**".data
    { tmap := st.tmap ++ [(ref, safe)], cmap := cmap2,
      found := st.found ++ [ref], counter := counter9,
      parts := st.parts ++ [header9 ++ "\n".data ++ content.take 3500] }
  else
    { st with parts := st.parts ++ [header ++ "\n".data ++ content.take 3500] }

/-- The context-preparation loop over the filtered documents. -/
def ctxFold : Nat → List PyDoc → CtxState → CtxState
  | _, [], st => st
  | i, d :: ds, st => ctxFold (i + 1) ds (ctxStep i d st)

/-- The whole context stage: start from the reference banner and fold the
loop from index 1. -/
def contextOf (docs : List PyDoc) : CtxState :=
  ctxFold 1 docs
    { parts := ["⚠️ **แหล่งข้อมูลอ้างอิง:** (เรียงตามความเกี่ยวข้อง)\n".data] }

/-- The strict table-mode system prompt (fixed text around the context). -/
def systemPromptTable (ctx : PyStr) : PyStr :=
  "คุณเป็น AI ที่ทำหน้าที่ดึง \x27ตาราง\x27 จากเอกสารมาแสดงตามคำสั่ง\nคำสั่ง:\n1. ดูข้อมูลใน CONTEXT ว่ามีตาราง (SOURCE: Table) ที่เกี่ยวข้องกับคำถามหรือไม่\n2. ถ้าพบตาราง ให้ตอบด้วยรหัส [SHOW_TABLE:TBL_x] เท่านั้น ห้ามสรุปความ ห้ามอธิบายเพิ่ม\n3. ถ้าพบหลายตารางที่เกี่ยวข้องกัน ให้ส่งมาให้ครบ เช่น [SHOW_TABLE:TBL_1] [SHOW_TABLE:TBL_2]\n4. ถ้าเป็นคำขอให้แสดงตาราง ให้จัดลำดับความสำคัญที่ตารางก่อนเสมอ\n\n=== CONTEXT ===\n".data ++ ctx ++ "\n===============".data

/-- The normal-mode system prompt (fixed text around the context). -/
def systemPromptText (ctx : PyStr) : PyStr :=
  "คุณเป็นผู้ช่วยอัจฉริยะ (Smart Assistant) ที่ตอบคำถามจากเอกสารที่กำหนดให้ (Context) เท่านั้น\nคำแนะนำ:\n1. **วิเคราะห์คำถาม:** จับประเด็นสำคัญว่าผู้ใช้ต้องการทราบอะไร\n2. **ค้นหาข้อมูล:** ดูข้อมูลใน Context ว่ามีส่วนไหนที่ตอบคำถามได้บ้าง\n   - ⚠️ **สำคัญ:** แหล่งข้อมูลใน Context เรียงตามลำดับความสำคัญแล้ว ให้ความสำคัญกับลำดับต้นๆ ก่อน\n3. **สังเคราะห์คำตอบ:** เรียบเรียงคำตอบให้น่าอ่าน เป็นภาษาไทยที่สละสลวย\n4. **การแสดงตาราง (ยืดหยุ่น):**\n   - [SHOW_TABLE:TBL_x] สำหรับเรียกตารางด้วยเลข (เช่น TBL_1)\n   - [SHOW_TABLE:CAT=หมวดหมู่] สำหรับเรียกตารางด้วยหมวด\n5. **[สำคัญ] การใช้ข้อมูลจากตาราง:**\n   - หากข้อมูลคำตอบอยู่ในส่วนที่เป็น Table (SOURCE Type: Table) **ต้อง** ดึงข้อมูลนั้นมาตอบ อย่าบอกว่าไม่พบข้อมูล\n   - ถ้าตารางมีข้อมูลที่ตอบคำถามได้ ให้ตอบฟันธงไปเลย\n\nกฎเหล็ก:\n- ห้ามตอบนอกเหนือจากข้อมูลที่มีใน Context\n- ถ้าไม่พบข้อมูล ให้ตอบว่า \x27ไม่พบข้อมูลในเอกสารที่แนบมา\x27\n- ห้ามแต่งเติมข้อมูลเอง (Anti-Hallucination)\n\n[IMAGE HANDLING]\nถ้าผู้ใช้ถามหารูปภาพ หรือใน Context มีข้อมูลรูปภาพที่เกี่ยวข้อง:\n1. มองหาข้อมูลที่ขึ้นต้นด้วย \x27Path: ...\x27 ใน Context\n2. ตอบโดยใช้ Tag นี้แทรกในคำตอบ: [SHOW_IMAGE: <path_file>]\nตัวอย่าง: \x27นี่คือรูปที่คุณต้องการครับ [SHOW_IMAGE: ingested/doc_001/images/img_1.png]\x27=== CONTEXT ===\n".data ++ ctx ++ "\n===============".data

/-- Plans A and B of the generation stage: the primary LLM when available
(one `llmA` event), then — when the answer is still empty or the `AI
Error` sentinel — the backup LLM when available (one `llmB` event); a
failing invocation leaves the previous answer text in place. -/
def planStage (env : RagEnv) (sp query : PyStr) : PyStr × List RagEvent :=
  let a1 : PyStr × List RagEvent :=
    match env.planA with
    | none => ([], [])
    | some f => ((f sp query).getD [], [RagEvent.llmA])
  if a1.1 = [] ∨ a1.1 = "AI Error".data then
    match env.planB with
    | none => a1
    | some g => ((g sp query).getD a1.1, a1.2 ++ [RagEvent.llmB])
  else a1

/-- One fallback excerpt: the first 400 characters with newlines flattened
to spaces, stripped, plus an ellipsis. -/
def fallbackSnippet (d : PyDoc) : PyStr :=
  pyStrip ((d.page_content.take 400).map
    (fun c => if c = '\n' then ' ' else c)) ++ "...".data

/-- The numbered, page-labelled fallback excerpt lines. -/
def fallbackEntries : Nat → List PyDoc → List PyStr
  | _, [] => []
  | i, d :: ds =>
    ("**".data ++ Chunking.natStr i ++ ". (หน้า ".data ++ pageStrOf d
      ++ ")** ".data ++ fallbackSnippet d) :: fallbackEntries (i + 1) ds

/-- `_generate_fallback_answer` from `rag.py`: a fixed message when no
documents are left, otherwise a warning header naming the error followed by
up to four numbered excerpts with page labels. -/
def generate_fallback_answer (docs : List PyDoc) (error_msg : PyStr) :
    PyStr :=
  if docs = [] then
    "ไม่พบข้อมูลที่เกี่ยวข้องในเอกสาร (และ AI ไม่สามารถประมวลผลได้ในขณะนี้)".data
  else
    "⚠️ **แจ้งเตือน (".data ++ error_msg
      ++ "):** ระบบจึงดึงเนื้อหาที่เกี่ยวข้องจากเอกสารมาแสดงให้โดยตรงครับ:\n\n".data
      ++ Chunking.joinSep "\n\n".data (fallbackEntries 1 (docs.take 4))

/-- The `sources` list of the final payload. -/
def sourcesOf (docs : List PyDoc) : List SourceEntry :=
  docs.map (fun d =>
    { doc_id := d.doc_id, page := d.page, source := d.source,
      chunk_id := d.chunk_id })

end Rag

namespace Rag

/-- `answer_question` from `rag.py` (the non-LLM-content observable
behaviour; LLM/Q&A/reranker outputs come from the environment): the empty-
query and general-intent guards, deterministic mode selection, the single
strict search (layers 2/3 are disabled in the code), rerank, the strict
relevance filter with its Q&A rescue, context/table-map preparation, the
plan-A/plan-B/plan-C generation ladder with the raw-excerpt fallback (or
the table-mode escape that keeps the empty answer for the reinjection
pass), the reinjection post-processing, and the sources assembly.  The
second component is the effect trace of the run. -/
def answer_question (env : RagEnv) (query : PyStr) (doc_ids : List PyStr)
    (top_k : Nat) (mode : PyStr) : RagAnswer × List RagEvent :=
  if query = [] ∨ pyStrip query = [] then
    ({ answer := "กรุณาพิมพ์คำถามครับ".data, sources := [], intent := none,
       mode := mode }, [])
  else if detect_general_intent query then
    ({ answer := "คำถามนี้ดูเหมือนเป็นคำถามทั่วไป ผมตอบได้เฉพาะข้อมูลที่มีในเอกสารที่แนบมาเท่านั้นครับ (ลองถามเกี่ยวกับเนื้อหาในเอกสารดูนะครับ)".data,
       sources := [], intent := some "general".data, mode := mode }, [])
  else
    let intent := modeSelect mode query
    match VectorStore.search_similar env.db env.reloadedDb query
        (top_k * 3) (sdidsOf doc_ids) [] [] with
    | .error m =>
      ({ answer := "ระบบค้นหาขัดข้อง: ".data ++ m, sources := [],
         intent := some intent, mode := mode }, [RagEvent.search])
    | .ok raw_docs =>
      let docs := rerank env.reranker query raw_docs top_k
      let relevant := filter_relevant_docs query docs MIN_SCORE_THRESHOLD
      if relevant = [] then
        match env.qnaMatch query docs with
        | some (ans, srcs) =>
          ({ answer := ans, sources := srcs, intent := some "qna".data,
             mode := mode ++ "+qna".data }, [RagEvent.search])
        | none =>
          ({ answer := "ไม่พบข้อมูลที่ตรงกับคำถามในเอกสารที่แนบมาครับ (Relevance Score ต่ำเกินไป)".data,
             sources := [], intent := some intent, mode := mode },
           [RagEvent.search])
      else
        let ctx := contextOf relevant
        let context_text := Chunking.joinSep "\n\n".data ctx.parts
        let sp := if mode = "table".data then systemPromptTable context_text
          else systemPromptText context_text
        let pr := planStage env sp query
        if pr.1 = [] ∧ ¬(mode = "table".data ∧ ctx.found ≠ []) then
          ({ answer := generate_fallback_answer relevant "System Error".data,
             sources := [], intent := some intent,
             mode := mode ++ "+error".data }, RagEvent.search :: pr.2)
        else
          ({ answer := postProcessAnswer ctx.tmap ctx.cmap pr.1,
             sources := sourcesOf relevant, intent := some intent,
             mode := mode ++ "+qna_llm".data }, RagEvent.search :: pr.2)

end Rag

/-- C8: a blank (empty or whitespace-only) query makes `answer_question`
return the fixed clarification message with an empty sources list, a null
intent and the caller's mode unchanged, and the empty effect trace shows
that no search against the vector index (and no LLM call) is performed. -/
theorem C8_theorem (env : Rag.RagEnv) (query : PyStr)
    (doc_ids : List PyStr) (top_k : Nat) (mode : PyStr)
    (h : pyStrip query = []) :
    Rag.answer_question env query doc_ids top_k mode
      = ({ answer := "กรุณาพิมพ์คำถามครับ".data, sources := [],
           intent := none, mode := mode }, []) := by
  simp only [Rag.answer_question]
  rw [if_pos (Or.inr h)]

/-- C8 witness: the whitespace query `" "` on a live store produces the
clarification payload and an empty effect trace. -/
theorem C8_witness :
    Rag.answer_question
        { db := { store := [{ page_content := "x".data }] },
          reloadedDb := { store := [] } }
        " ".data ["d1".data] 10 "auto".data
      = ({ answer := "กรุณาพิมพ์คำถามครับ".data, sources := [],
           intent := none, mode := "auto".data }, []) :=
  C8_theorem _ _ _ _ _ (by decide)

theorem containsSub_of_isPrefixOf {pat t : PyStr}
    (h : pat.isPrefixOf t = true) : Chunking.containsSub pat t = true := by
  unfold Chunking.containsSub
  rw [List.any_eq_true]
  exact ⟨t, (List.mem_tails t t).mpr (List.suffix_refl t), h⟩

theorem containsSub_append_left {pat t : PyStr} (a : PyStr)
    (h : Chunking.containsSub pat t = true) :
    Chunking.containsSub pat (a ++ t) = true := by
  induction a with
  | nil => simpa using h
  | cons c a' ih =>
    unfold Chunking.containsSub
    rw [List.any_eq_true]
    unfold Chunking.containsSub at ih
    rw [List.any_eq_true] at ih
    obtain ⟨t9, ht9, hp⟩ := ih
    refine ⟨t9, ?_, hp⟩
    rw [List.cons_append, List.tails_cons]
    exact List.mem_cons_of_mem _ ht9

theorem joinSep_cons_ex (sep x : PyStr) (xs : List PyStr) :
    ∃ r, Chunking.joinSep sep (x :: xs) = x ++ r := by
  cases xs with
  | nil => exact ⟨[], by simp [Chunking.joinSep]⟩
  | cons y ys =>
    exact ⟨sep ++ Chunking.joinSep sep (y :: ys),
      by simp [Chunking.joinSep, List.append_assoc]⟩

theorem isPrefixOf_append_self (p r : PyStr) :
    p.isPrefixOf (p ++ r) = true := by
  induction p with
  | nil => simp [List.isPrefixOf]
  | cons c cs ih => simp [List.isPrefixOf, ih]

theorem fallback_has_excerpt (d : PyDoc) (ds : List PyDoc) (err : PyStr) :
    Chunking.containsSub "**1. (หน้า ".data
      (Rag.generate_fallback_answer (d :: ds) err) = true := by
  obtain ⟨r, hr⟩ := joinSep_cons_ex "\n\n".data
    ("**".data ++ Chunking.natStr 1 ++ ". (หน้า ".data ++ Rag.pageStrOf d
      ++ ")** ".data ++ Rag.fallbackSnippet d)
    (Rag.fallbackEntries 2 (ds.take 3))
  unfold Rag.generate_fallback_answer
  rw [if_neg (List.cons_ne_nil d ds)]
  rw [List.take_succ_cons]
  rw [show Rag.fallbackEntries 1 (d :: ds.take 3)
      = ("**".data ++ Chunking.natStr 1 ++ ". (หน้า ".data ++ Rag.pageStrOf d
        ++ ")** ".data ++ Rag.fallbackSnippet d)
        :: Rag.fallbackEntries 2 (ds.take 3) from rfl]
  rw [hr]
  apply containsSub_append_left
  apply containsSub_of_isPrefixOf
  rw [show ("**".data ++ Chunking.natStr 1 ++ ". (หน้า ".data
      ++ Rag.pageStrOf d ++ ")** ".data ++ Rag.fallbackSnippet d) ++ r
      = "**1. (หน้า ".data ++ (Rag.pageStrOf d
        ++ (")** ".data ++ (Rag.fallbackSnippet d ++ r)))
    from by simp only [List.append_assoc]; rfl]
  exact isPrefixOf_append_self _ _

theorem planStage_both_fail (env : Rag.RagEnv) (query : PyStr)
    (hA : ∀ f sp, env.planA = some f → f sp query = none)
    (g : PyStr → PyStr → Option PyStr) (hgB : env.planB = some g)
    (hg : ∀ sp, g sp query = none) (sp : PyStr) :
    ∃ e1, Rag.planStage env sp query = ([], e1 ++ [Rag.RagEvent.llmB]) := by
  cases hpa : env.planA with
  | none =>
    refine ⟨[], ?_⟩
    simp [Rag.planStage, hpa, hgB, hg sp]
  | some f =>
    refine ⟨[Rag.RagEvent.llmA], ?_⟩
    simp [Rag.planStage, hpa, hA f sp hpa, hgB, hg sp]

/-- C7: when a query reaches generation with a non-empty relevant candidate
list, the primary LLM fails (or is unavailable) and the configured backup
LLM is attempted and also fails, then — unless the caller forced
`mode="table"` and a table chunk was found, the code's fail-safe escape —
the payload is the deterministic raw-excerpt fallback: the
`_generate_fallback_answer` text over the relevant documents (which starts
its excerpt list with the page-labelled `**1. (หน้า ...)**` entry), an
empty sources list, and the mode tagged `+error`; the trace records the
backup attempt.  (In the excluded table-mode case the code instead keeps
the empty answer for the reinjection pass, so no excerpt fallback is
produced there — see the counterexample.) -/
theorem C7_theorem (env : Rag.RagEnv) (query : PyStr) (doc_ids : List PyStr)
    (top_k : Nat) (mode : PyStr) (raw rds : List PyDoc)
    (hq : pyStrip query ≠ [])
    (hgen : Rag.detect_general_intent query = false)
    (hsearch : VectorStore.search_similar env.db env.reloadedDb query
      (top_k * 3) (Rag.sdidsOf doc_ids) [] [] = Except.ok raw)
    (hrel : Rag.filter_relevant_docs query
      (Rag.rerank env.reranker query raw top_k) Rag.MIN_SCORE_THRESHOLD
      = rds)
    (hne : rds ≠ [])
    (hA : ∀ f sp, env.planA = some f → f sp query = none)
    (hB : ∃ g, env.planB = some g ∧ ∀ sp, g sp query = none)
    (hmode : mode ≠ "table".data ∨ (Rag.contextOf rds).found = []) :
    (Rag.answer_question env query doc_ids top_k mode).1
      = { answer := Rag.generate_fallback_answer rds "System Error".data,
          sources := [], intent := some (Rag.modeSelect mode query),
          mode := mode ++ "+error".data }
    ∧ Rag.RagEvent.llmB ∈ (Rag.answer_question env query doc_ids top_k mode).2
    ∧ Chunking.containsSub "**1. (หน้า ".data
        (Rag.generate_fallback_answer rds "System Error".data) = true := by
  obtain ⟨g, hgB, hg⟩ := hB
  obtain ⟨d, ds, rfl⟩ : ∃ d ds, rds = d :: ds := by
    cases rds with
    | nil => exact absurd rfl hne
    | cons a b => exact ⟨a, b, rfl⟩
  have hguard : ¬(query = [] ∨ pyStrip query = []) := by
    rintro (rfl | h)
    · exact hq rfl
    · exact hq h
  have hcond2 : ¬(mode = "table".data ∧ (Rag.contextOf (d :: ds)).found ≠ []) := by
    rcases hmode with hm | hf
    · exact fun hc => hm hc.1
    · exact fun hc => hc.2 hf
  obtain ⟨e1, hpl⟩ := planStage_both_fail env query hA g hgB hg
    (if mode = "table".data then
      Rag.systemPromptTable
        (Chunking.joinSep "\n\n".data (Rag.contextOf (d :: ds)).parts)
    else
      Rag.systemPromptText
        (Chunking.joinSep "\n\n".data (Rag.contextOf (d :: ds)).parts))
  simp only [Rag.answer_question, hsearch, hrel]
  rw [if_neg hguard]
  rw [if_neg (by simp [hgen])]
  rw [if_neg (List.cons_ne_nil d ds)]
  rw [hpl]
  rw [if_pos (And.intro rfl hcond2)]
  exact ⟨rfl, by simp, fallback_has_excerpt d ds _⟩

/-- A stored table chunk for the C7 scenario runs. -/
def c7tdoc : PyDoc :=
  { page_content := "y".data, doc_id := some "d1".data,
    source := some "table".data, page := some 1,
    chunk_id := some "c1".data, ai_score := some 1 }

/-- `c7tdoc` after the keyword-boost pass (no query term occurs in the
content, so the keyword score is `0`). -/
def c7bdoc : PyDoc :=
  { page_content := "y".data, doc_id := some "d1".data,
    source := some "table".data, page := some 1,
    chunk_id := some "c1".data, ai_score := some 1,
    keyword_score := some 0 }

/-- The C7 counterexample environment: one stored table chunk, primary and
backup LLMs both configured and both failing. -/
def c7env : Rag.RagEnv :=
  { db := { store := [c7tdoc] }, reloadedDb := { store := [] },
    planA := some (fun _ _ => none), planB := some (fun _ _ => none) }

/-- C7 counterexample: in caller-forced `table` mode with a table chunk
found, both generation providers are attempted and fail (the trace shows
the search and both LLM calls), yet the returned answer is the empty
string with mode `table+qna_llm` — not the deterministic labelled-excerpt
fallback the claim promises for every both-providers-fail run. -/
theorem C7_counterexample :
    (Rag.answer_question c7env "ตาราง".data [] 10 "table".data).1.answer = []
    ∧ (Rag.answer_question c7env "ตาราง".data [] 10 "table".data).1.mode
        = "table+qna_llm".data
    ∧ (Rag.answer_question c7env "ตาราง".data [] 10 "table".data).2
        = [Rag.RagEvent.search, Rag.RagEvent.llmA, Rag.RagEvent.llmB] := by
  have hsearch : VectorStore.search_similar c7env.db c7env.reloadedDb
      "ตาราง".data (10 * 3) (Rag.sdidsOf []) [] [] = Except.ok [c7tdoc] := rfl
  have hrerank : Rag.rerank c7env.reranker "ตาราง".data [c7tdoc] 10
      = [c7bdoc] := rfl
  have hrel : Rag.filter_relevant_docs "ตาราง".data [c7bdoc]
      Rag.MIN_SCORE_THRESHOLD = [c7bdoc] := by
    simp only [Rag.filter_relevant_docs, Rag.MIN_SCORE_THRESHOLD,
      List.filter_cons, List.filter_nil, c7bdoc, Option.getD_some]
    norm_num
  have hplan : ∀ sp, Rag.planStage c7env sp "ตาราง".data
      = ([], [Rag.RagEvent.llmA, Rag.RagEvent.llmB]) := fun sp => rfl
  have hcond : ¬((([], [Rag.RagEvent.llmA, Rag.RagEvent.llmB]).1 : PyStr) = []
      ∧ ¬(True ∧ (Rag.contextOf [c7bdoc]).found ≠ [])) :=
    fun hc => hc.2 ⟨trivial, by decide⟩
  simp only [Rag.answer_question, hsearch, hrerank, hrel]
  rw [if_neg (by decide : ¬("ตาราง".data = [] ∨ pyStrip "ตาราง".data = []))]
  rw [if_neg (by decide : ¬(Rag.detect_general_intent "ตาราง".data = true))]
  rw [if_neg (List.cons_ne_nil c7bdoc [])]
  rw [hplan]
  rw [if_neg hcond]
  exact ⟨rfl, rfl, rfl⟩

/-- A stored text chunk for the C7 witness. -/
def c7wdoc : PyDoc :=
  { page_content := "x".data, doc_id := some "d1".data,
    source := some "text".data, page := some 2,
    chunk_id := some "c1".data, ai_score := some 1 }

/-- `c7wdoc` after the keyword-boost pass. -/
def c7wboost : PyDoc :=
  { page_content := "x".data, doc_id := some "d1".data,
    source := some "text".data, page := some 2,
    chunk_id := some "c1".data, ai_score := some 1,
    keyword_score := some 0 }

/-- The C7 witness environment: one stored text chunk, both LLMs
configured and failing. -/
def c7wenv : Rag.RagEnv :=
  { db := { store := [c7wdoc] }, reloadedDb := { store := [] },
    planA := some (fun _ _ => none), planB := some (fun _ _ => none) }

/-- C7 witness: on a concrete text-mode run whose search yields one
relevant chunk and whose two LLMs both fail, `answer_question` returns the
raw-excerpt fallback payload with empty sources and mode `auto+error`, the
backup attempt is in the trace, and the fallback text carries the
page-labelled first excerpt. -/
theorem C7_witness :
    (Rag.answer_question c7wenv "ปลา".data [] 10 "auto".data).1
      = { answer := Rag.generate_fallback_answer [c7wboost]
            "System Error".data,
          sources := [], intent := some "text".data,
          mode := "auto+error".data }
    ∧ Rag.RagEvent.llmB
        ∈ (Rag.answer_question c7wenv "ปลา".data [] 10 "auto".data).2
    ∧ Chunking.containsSub "**1. (หน้า ".data
        (Rag.generate_fallback_answer [c7wboost] "System Error".data)
        = true :=
  C7_theorem c7wenv "ปลา".data [] 10 "auto".data [c7wdoc] [c7wboost]
    (by decide) (by decide) rfl
    (by
      rw [show Rag.rerank c7wenv.reranker "ปลา".data [c7wdoc] 10 = [c7wboost]
        from rfl]
      simp only [Rag.filter_relevant_docs, Rag.MIN_SCORE_THRESHOLD,
        List.filter_cons, List.filter_nil, c7wboost, Option.getD_some]
      norm_num)
    (List.cons_ne_nil _ _)
    (by
      intro f sp h
      injection h with h2
      exact h2 ▸ rfl)
    ⟨fun _ _ => none, rfl, fun _ => rfl⟩
    (Or.inl (by decide))
